import Mathlib

/-!
TRXBarsEditor: the draft controller of `BarsApp` and the editor views

A shallow embedding of the state-changing part of `src/static/bars/app.js`
(class `BarsApp`): the single in-flight draft, the persisted selection and
the conflict prompt that runs when the selection changes under a dirty
draft; of loading, exporting and the stored text; and of the parts of
`views/editor-view.js`, `views/bars-list-view.js` and `dom.js` that decide
values: swatch changes, the variant of a theme, the name checks of the theme
and bar managers, the guard of the big preview and `escapeHtml`.

DOM work (rendering, flashing, canvas drawing) has no effect on the fields
modelled here and is left out. JavaScript objects are ordered association
lists read by their first matching key; inherited properties are not
modelled, and values are immutable, so `structuredClone` is the identity.
`window.confirm` is modelled by passing the user's answer to the operation;
a ghost trace (`App.log`) records every prompt, alert, successful draft
commit and `startDraft` call in the order in which the code performs them.

The class `StateStore` of `state-store.js`, `adjustBarValueAbsolute` of
`bar-edit.js`, `normalizeHexColor` of `hsl.js` and `buildThemeFromSection` of
`theme.js` lie outside the sources embedded here, as do the browser's
`localStorage`, `JSON.stringify` and the evaluation of a text as JavaScript.
The operations take them as parameters, so every general theorem below
holds for any implementation of them. `specStore` is one concrete store,
modelled from the specification, used to evaluate the code at concrete
inputs.
-/

namespace BarsApp

/-! ## Data model -/

/-- Property keys: theme names and bar names. -/
abbrev Key := String

/-- A bar value: one ramp of hex colours (style "pc") or a left/right pair
of ramps (style "ps1"). -/
inductive BarValue where
  | ramp (colors : List String)
  | dual (left right : List String)
  deriving DecidableEq, Repr

/-- A theme ("section"): a style tag and a mapping from bar name to value.
`colors` may be missing, and an entry may hold an explicit `null`. -/
structure Section where
  style : Option String
  colors : Option (List (Key × Option BarValue))
  deriving DecidableEq, Repr

/-- The materialised workspace (and the base configuration): an ordered
mapping from theme key to theme. -/
abbrev Workspace := List (Key × Section)

/-- The pending HSL delta `{ h, s, l }` of a draft. -/
structure Hsl where
  h : Int
  s : Int
  l : Int
  deriving DecidableEq, Repr

/-- The draft object built by `startDraft`. `barName` is nullable because
`renderAll` passes `state.selected.barName` through unchecked. -/
structure Draft where
  sectionKey : Key
  barName : Option Key
  baseValueSnapshot : BarValue
  value : BarValue
  hsl : Hsl
  dirty : Bool
  deriving DecidableEq, Repr

/-- The persisted selection `{ sectionKey, barName }`. -/
structure Selection where
  sectionKey : Key
  barName : Option Key
  deriving DecidableEq, Repr

/-- The record `stateStore.state`: selection, display preferences and the
edit overlay, whose representation `E` belongs to the absent store. -/
structure StoreState (E : Type) where
  selected : Option Selection
  percent : Rat
  smooth : Bool
  edits : E
  deriving DecidableEq, Repr

/-- The methods of `StateStore` that `BarsApp` calls, taken as parameters
because `state-store.js` is not available. Each one maps the store's state
to its next state; `setEditedBarValue` may throw, which `confirmDraft`
catches. `saveToStorage` only persists and is therefore not represented. -/
structure StateStore (E : Type) where
  buildWorkspaceData : StoreState E → Workspace → Workspace
  hasAnyEdits : StoreState E → Bool
  resetEdits : StoreState E → StoreState E
  selectBar : StoreState E → Key → Key → StoreState E
  selectTheme : StoreState E → Key → Workspace → StoreState E
  addTheme : StoreState E → Key → String → StoreState E
  copyTheme : StoreState E → Key → Key → Workspace → StoreState E
  deleteTheme : StoreState E → Key → StoreState E
  setBarValue : StoreState E → Key → Key → BarValue → Workspace → StoreState E
  setEditedBarValue :
    StoreState E → Key → Option Key → BarValue → Workspace → Except String (StoreState E)
  renameBar : StoreState E → Key → Key → Key → Workspace → StoreState E
  deleteBar : StoreState E → Key → Key → Workspace → StoreState E
  moveBar : StoreState E → Key → Key → Int → Workspace → StoreState E

/-- Ghost trace of what the controller does towards the user and the store. -/
inductive Event where
  | confirm (message : String) (answer : Bool)
  | alert (message : String)
  | setEditedBarValue (sectionKey : Key) (barName : Option Key) (value : BarValue)
  | startDraft (sectionKey : Key) (barName : Option Key)
  deriving DecidableEq, Repr

/-- Whether an event is a `window.confirm` prompt. -/
def Event.isConfirm : Event → Bool
  | .confirm _ _ => true
  | _ => false

/-- Whether an event is a commit of a draft value to the store. -/
def Event.isWrite : Event → Bool
  | .setEditedBarValue _ _ _ => true
  | _ => false

/-- The fields of a `BarsApp` instance that the draft controller reads and
writes, together with the ghost trace. -/
structure App (E : Type) where
  store : StoreState E
  baseData : Option Workspace
  draft : Option Draft
  log : List Event
  deriving DecidableEq, Repr

/-! ## Helpers for JavaScript idioms -/

/-- The expression `this.baseData || {}`. -/
def baseOrEmpty {E : Type} (app : App E) : Workspace :=
  app.baseData.getD []

/-- Property-key coercion of a nullable name: `obj[null]` reads `obj["null"]`. -/
def propKey : Option Key → Key
  | none => "null"
  | some k => k

/-- Truthiness of a string. -/
def truthy (k : Key) : Bool := k != ""

/-- Truthiness of a nullable string. -/
def truthyOpt : Option Key → Bool
  | none => false
  | some k => truthy k

/-- The expression `section && section.colors ? section.colors[barName] : null`
for `section = workspace[sectionKey]`; `none` stands for `null`/`undefined`. -/
def lookupBar (workspace : Workspace) (sectionKey : Key) (barName : Option Key) :
    Option BarValue :=
  match workspace.lookup sectionKey with
  | none => none
  | some sec =>
    match sec.colors with
    | none => none
    | some colors => (colors.lookup (propKey barName)).join

/-- Assignment `colors[name] = v` on an ordered mapping: an existing key keeps
its position, a new key goes last. -/
def assignKey {α : Type} (name : Key) (v : α) : List (Key × α) → List (Key × α)
  | [] => [(name, v)]
  | (k, x) :: rest => if k == name then (k, v) :: rest else (k, x) :: assignKey name v rest

/-- The prompt shown by `maybePromptToResolveDraft`. -/
def savePrompt : String := "You have uncommitted changes. Save them?"

/-- The prompt shown by `resetEdits`. -/
def resetPrompt : String := "Reset ALL edits?"

/-! ## Operations of `BarsApp` -/

section Operations

variable {E : Type}

/-- Method `BarsApp.startDraft` (app.js 518-534). -/
def startDraft (S : StateStore E) (app : App E) (sectionKey : Key) (barName : Option Key) :
    App E :=
  let app := { app with log := app.log ++ [Event.startDraft sectionKey barName] }
  let workspace := S.buildWorkspaceData app.store (baseOrEmpty app)
  match lookupBar workspace sectionKey barName with
  | none => { app with draft := none }
  | some baseValue =>
    { app with
      draft := some
        { sectionKey := sectionKey
          barName := barName
          baseValueSnapshot := baseValue
          value := baseValue
          hsl := ⟨0, 0, 0⟩
          dirty := false } }

/-- Method `BarsApp.renderAll` (app.js 305-330), its effect on the draft: a missing
draft is restarted from the persisted selection. -/
def renderAll (S : StateStore E) (app : App E) : App E :=
  match app.draft, app.store.selected with
  | none, some sel => startDraft S app sel.sectionKey sel.barName
  | _, _ => app

/-- Method `BarsApp.buildWorkspaceWithDraft` (app.js 347-359): the workspace
it returns. The method assigns the draft's value in place into the object that
`buildWorkspaceData` returned; what that write does to other holders of the
object is given by `buildWorkspaceWithDraftInPlace`. -/
def buildWorkspaceWithDraft (S : StateStore E) (app : App E) : Workspace :=
  let workspace := S.buildWorkspaceData app.store (baseOrEmpty app)
  match app.draft with
  | none => workspace
  | some d =>
    match d.barName, workspace.lookup d.sectionKey with
    | some barName, some sec =>
      match sec.colors with
      | none => workspace
      | some colors =>
        assignKey d.sectionKey { sec with colors := some (assignKey barName (some d.value) colors) }
          workspace
    | _, _ => workspace

/-- Method `BarsApp.getWorkspace` (app.js 343-345). -/
def getWorkspace (S : StateStore E) (app : App E) : Workspace :=
  buildWorkspaceWithDraft S app

/-- Method `BarsApp.setDraftHsl` (app.js 375-383). -/
def setDraftHsl (adjust : BarValue → Int → Int → Int → BarValue) (app : App E)
    (h s l : Int) : App E :=
  match app.draft with
  | none => app
  | some d =>
    { app with
      draft := some
        { d with hsl := ⟨h, s, l⟩, value := adjust d.baseValueSnapshot h s l, dirty := true } }

/-- Method `BarsApp.setDraftValue` (app.js 536-546). -/
def setDraftValue (S : StateStore E) (app : App E) (sectionKey : Key) (barName : Option Key)
    (value : BarValue) : App E :=
  let app :=
    match app.draft with
    | none => startDraft S app sectionKey barName
    | some d =>
      if d.sectionKey != sectionKey || d.barName != barName then
        startDraft S app sectionKey barName
      else app
  match app.draft with
  | none => app
  | some d => { app with draft := some { d with value := value, dirty := true } }

/-- Method `BarsApp.resetDraft` (app.js 594-604). -/
def resetDraft (S : StateStore E) (app : App E) : App E :=
  match app.draft with
  | none => app
  | some d =>
    renderAll S
      { app with draft := some { d with value := d.baseValueSnapshot, hsl := ⟨0, 0, 0⟩, dirty := false } }

/-- Method `BarsApp.confirmDraft` (app.js 569-584). A throwing store write is
caught and reported with `window.alert`; the draft is then left as it was. -/
def confirmDraft (S : StateStore E) (app : App E) : App E :=
  match app.draft with
  | none => app
  | some d =>
    match S.setEditedBarValue app.store d.sectionKey d.barName d.value (baseOrEmpty app) with
    | Except.ok store =>
      renderAll S
        { app with
          store := store
          draft := none
          log := app.log ++ [Event.setEditedBarValue d.sectionKey d.barName d.value] }
    | Except.error err => { app with log := app.log ++ [Event.alert ("Save failed: " ++ err)] }

/-- Method `BarsApp.cancelDraft` (app.js 586-592). -/
def cancelDraft (S : StateStore E) (app : App E) : App E :=
  match app.draft with
  | none => app
  | some _ => renderAll S { app with draft := none }

/-- The test of `maybePromptToResolveDraft` that decides whether to prompt
(app.js 623-629), for a draft `d` and a requested target. -/
def needsPrompt (d : Draft) (nextSectionKey nextBarName : Option Key) : Bool :=
  let switchingBar :=
    nextSectionKey.isSome && nextBarName.isSome &&
      (nextSectionKey != some d.sectionKey || nextBarName != d.barName)
  let leavingSelection := nextSectionKey.isNone && nextBarName.isNone
  let switchingThemeOnly :=
    nextSectionKey.isSome && nextBarName.isNone && nextSectionKey != some d.sectionKey
  switchingBar || leavingSelection || switchingThemeOnly

/-- Method `BarsApp.maybePromptToResolveDraft` (app.js 619-639). `ok` is the answer
the user gives to `window.confirm` should the prompt appear. Returns the
method's return value and the next state. -/
def maybePromptToResolveDraft (S : StateStore E) (app : App E)
    (nextSectionKey nextBarName : Option Key) (ok : Bool) : Bool × App E :=
  match app.draft with
  | none => (true, app)
  | some d =>
    if d.dirty != true then (true, app)
    else if needsPrompt d nextSectionKey nextBarName then
      let app := { app with log := app.log ++ [Event.confirm savePrompt ok] }
      if ok == true then (true, confirmDraft S app)
      else (true, cancelDraft S app)
    else (true, app)

/-- Method `BarsApp.clearSelection` (app.js 402-409). -/
def clearSelection (S : StateStore E) (app : App E) (ok : Bool) : App E :=
  let (proceed, app) := maybePromptToResolveDraft S app none none ok
  if proceed != true then app
  else renderAll S { app with store := { app.store with selected := none } }

/-- Method `BarsApp.selectBar` (app.js 411-418). -/
def selectBar (S : StateStore E) (app : App E) (sectionKey barName : Key) (ok : Bool) : App E :=
  let (proceed, app) := maybePromptToResolveDraft S app (some sectionKey) (some barName) ok
  if proceed != true then app
  else
    let app := startDraft S app sectionKey (some barName)
    renderAll S { app with store := S.selectBar app.store sectionKey barName }

/-- The shared tail of `selectTheme`, `addTheme` and `copyTheme`: start a
draft on the bar the store selected, if it selected one. `clearOtherwise`
tells whether the `else` branch (`this.draft = null`) is present. -/
def draftForSelection (S : StateStore E) (app : App E) (clearOtherwise : Bool) : App E :=
  match app.store.selected with
  | some next =>
    if truthy next.sectionKey && truthyOpt next.barName then
      startDraft S app next.sectionKey next.barName
    else if clearOtherwise then { app with draft := none } else app
  | none => if clearOtherwise then { app with draft := none } else app

/-- Method `BarsApp.selectTheme` (app.js 420-432). -/
def selectTheme (S : StateStore E) (app : App E) (themeKey : Key) (ok : Bool) : App E :=
  let (proceed, app) := maybePromptToResolveDraft S app (some themeKey) none ok
  if proceed != true then app
  else
    let app := { app with store := S.selectTheme app.store themeKey (baseOrEmpty app) }
    renderAll S (draftForSelection S app true)

/-- Method `BarsApp.addTheme` (app.js 434-442). -/
def addTheme (S : StateStore E) (app : App E) (themeKey : Key) (kind : String) : App E :=
  let app := { app with store := S.addTheme app.store themeKey kind }
  let app := { app with store := S.selectTheme app.store themeKey (baseOrEmpty app) }
  renderAll S (draftForSelection S app false)

/-- Method `BarsApp.copyTheme` (app.js 444-452). -/
def copyTheme (S : StateStore E) (app : App E) (fromKey toKey : Key) : App E :=
  let app := { app with store := S.copyTheme app.store fromKey toKey (baseOrEmpty app) }
  let app := { app with store := S.selectTheme app.store toKey (baseOrEmpty app) }
  renderAll S (draftForSelection S app false)

/-- Method `BarsApp.deleteTheme` (app.js 459-467). -/
def deleteTheme (S : StateStore E) (app : App E) (themeKey : Key) : App E :=
  let app := { app with store := S.deleteTheme app.store themeKey }
  let app :=
    match app.store.selected with
    | some sel =>
      if sel.sectionKey == themeKey then
        { app with store := { app.store with selected := none }, draft := none }
      else app
    | none => app
  renderAll S app

/-- Method `BarsApp.renameTheme` (app.js 454-457). -/
def renameTheme (S : StateStore E) (app : App E) (fromKey toKey : Key) : App E :=
  deleteTheme S (copyTheme S app fromKey toKey) fromKey

/-- Method `BarsApp.addBar` (app.js 469-474). -/
def addBar (S : StateStore E) (app : App E) (themeKey barName : Key) (value : BarValue) :
    App E :=
  let app := { app with store := S.setBarValue app.store themeKey barName value (baseOrEmpty app) }
  let app := { app with store := S.selectBar app.store themeKey barName }
  renderAll S (startDraft S app themeKey (some barName))

/-- Method `BarsApp.copyBar` (app.js 476-486). -/
def copyBar (S : StateStore E) (app : App E) (themeKey fromName toName : Key) : App E :=
  match lookupBar (getWorkspace S app) themeKey (some fromName) with
  | none => app
  | some v =>
    let app := { app with store := S.setBarValue app.store themeKey toName v (baseOrEmpty app) }
    let app := { app with store := S.selectBar app.store themeKey toName }
    renderAll S (startDraft S app themeKey (some toName))

/-- Method `BarsApp.renameBar` (app.js 488-493). -/
def renameBar (S : StateStore E) (app : App E) (themeKey fromName toName : Key) : App E :=
  let app := { app with store := S.renameBar app.store themeKey fromName toName (baseOrEmpty app) }
  let app := { app with store := S.selectBar app.store themeKey toName }
  renderAll S (startDraft S app themeKey (some toName))

/-- Method `BarsApp.deleteBar` (app.js 495-509). -/
def deleteBar (S : StateStore E) (app : App E) (themeKey barName : Key) : App E :=
  let app := { app with store := S.deleteBar app.store themeKey barName (baseOrEmpty app) }
  let names : List Key :=
    match (getWorkspace S app).lookup themeKey with
    | some sec => ((sec.colors.getD []).map Prod.fst)
    | none => []
  match names.head? with
  | some next =>
    let app := { app with store := S.selectBar app.store themeKey next }
    renderAll S (startDraft S app themeKey (some next))
  | none =>
    renderAll S
      { app with
        store := { app.store with selected := some ⟨themeKey, some ""⟩ }
        draft := none }

/-- Method `BarsApp.moveBar` (app.js 511-516). -/
def moveBar (S : StateStore E) (app : App E) (themeKey barName : Key) (delta : Int) : App E :=
  let app := { app with store := S.moveBar app.store themeKey barName delta (baseOrEmpty app) }
  let app := { app with store := S.selectBar app.store themeKey barName }
  renderAll S (startDraft S app themeKey (some barName))

/-- Method `BarsApp.resetEdits` (app.js 385-400). `ok` is the answer to the
"Reset ALL edits?" prompt. -/
def resetEdits (S : StateStore E) (app : App E) (ok : Bool) : App E :=
  if S.hasAnyEdits app.store != true then app
  else
    let app := { app with log := app.log ++ [Event.confirm resetPrompt ok] }
    if ok != true then app
    else
      let app := { app with store := S.resetEdits app.store }
      let app :=
        match app.store.selected with
        | some sel => startDraft S app sel.sectionKey sel.barName
        | none => { app with draft := none }
      renderAll S app

end Operations

/-! ## Editing sequences -/

section Sequences

variable {E : Type}

/-- An edit of the value of the draft that exists: a direct value (swatch
change) or an HSL delta (slider move). -/
inductive DraftEdit where
  | setValue (value : BarValue)
  | setHsl (h s l : Int)
  deriving DecidableEq, Repr

/-- Run one edit on the current draft's own bar: `setDraftValue` is called
with the draft's `sectionKey` and `barName`, `setDraftHsl` with the delta. -/
def applyEdit (S : StateStore E) (adjust : BarValue → Int → Int → Int → BarValue)
    (app : App E) : DraftEdit → App E
  | .setValue value =>
    match app.draft with
    | none => app
    | some d => setDraftValue S app d.sectionKey d.barName value
  | .setHsl h s l => setDraftHsl adjust app h s l

/-- Run a sequence of edits, first to last. -/
def applyEdits (S : StateStore E) (adjust : BarValue → Int → Int → Int → BarValue)
    (app : App E) (edits : List DraftEdit) : App E :=
  edits.foldl (applyEdit S adjust) app

/-- A call of one of the four draft operations, with its arguments. -/
inductive DraftCmd where
  | startDraft (sectionKey : Key) (barName : Option Key)
  | setDraftValue (sectionKey : Key) (barName : Option Key) (value : BarValue)
  | setDraftHsl (h s l : Int)
  | resetDraft
  deriving DecidableEq, Repr

/-- Run one draft operation. -/
def runCmd (S : StateStore E) (adjust : BarValue → Int → Int → Int → BarValue)
    (app : App E) : DraftCmd → App E
  | .startDraft sectionKey barName => startDraft S app sectionKey barName
  | .setDraftValue sectionKey barName value => setDraftValue S app sectionKey barName value
  | .setDraftHsl h s l => setDraftHsl adjust app h s l
  | .resetDraft => resetDraft S app

/-- Run a sequence of draft operations, first to last. -/
def runCmds (S : StateStore E) (adjust : BarValue → Int → Int → Int → BarValue)
    (app : App E) (cmds : List DraftCmd) : App E :=
  cmds.foldl (runCmd S adjust) app

/-- The colours of a bar value after normalisation, an unparsable colour
being replaced by the default `#000000` as the views do. `normalize` stands
for `normalizeHexColor` of `hsl.js`. -/
def normalizedColors (normalize : String → Option String) : BarValue → BarValue
  | .ramp colors => .ramp (colors.map fun c => (normalize c).getD "#000000")
  | .dual left right =>
    .dual (left.map fun c => (normalize c).getD "#000000")
      (right.map fun c => (normalize c).getD "#000000")

/-- Colour-normalised comparison of two bar values. -/
def sameColors (normalize : String → Option String) (a b : BarValue) : Bool :=
  normalizedColors normalize a == normalizedColors normalize b

/-- No draft, or a draft whose value is its snapshot whenever it is clean. -/
def CleanMeansUnchanged (draft : Option Draft) : Prop :=
  ∀ d, draft = some d → d.dirty = false → d.value = d.baseValueSnapshot

end Sequences

/-! ## A concrete store

The overlay is kept as the list of structural edits made so far and the
workspace is rebuilt by replaying them over the base configuration. -/

namespace SpecStore

/-- Modelled from the spec: one entry of the EditOverlay of `state-store.js`
(absent from the sources): an overridden bar value or one of the structural
operations "added themes, deleted themes/bars, renamed bars, reordering". -/
inductive EditOp where
  | setBar (themeKey barName : Key) (value : BarValue)
  | deleteBar (themeKey barName : Key)
  | renameBar (themeKey fromName toName : Key)
  | moveBar (themeKey barName : Key) (delta : Int)
  | addTheme (themeKey : Key) (kind : String)
  | copyTheme (fromKey toKey : Key)
  | deleteTheme (themeKey : Key)
  deriving DecidableEq, Repr

/-- Apply `f` to the colours of theme `themeKey`, if the theme exists. -/
def onColors (themeKey : Key)
    (f : List (Key × Option BarValue) → List (Key × Option BarValue)) (w : Workspace) :
    Workspace :=
  w.map fun entry =>
    if entry.1 == themeKey then
      (entry.1, { entry.2 with colors := some (f (entry.2.colors.getD [])) })
    else entry

/-- Insert `x` at position `n` of a list (at the end when `n` is too large). -/
def insertAt {α : Type} (x : α) : Nat → List α → List α
  | 0, xs => x :: xs
  | _ + 1, [] => [x]
  | n + 1, y :: ys => y :: insertAt x n ys

/-- Modelled from the spec: `moveBar` "reorders within the bar-name sequence
by `delta` positions ... moving past either end is a no-op". -/
def moveEntry (barName : Key) (delta : Int) (colors : List (Key × Option BarValue)) :
    List (Key × Option BarValue) :=
  match colors.lookup barName with
  | none => colors
  | some v =>
    let i : Int := ((colors.map Prod.fst).indexOf barName : Nat)
    let j := i + delta
    if j < 0 ∨ (colors.length : Int) ≤ j then colors
    else insertAt (barName, v) j.toNat (colors.filter fun entry => entry.1 != barName)

/-- Modelled from the spec: the effect of one overlay entry on the
workspace, as §4.2 describes the store's mutations (`setBarValue` "upserts;
if the theme doesn't exist yet in the merged view, create it with default
style pc"; `renameBar` is a no-op when the old name is absent and keeps the
position; `copyTheme` clones the merged view of the source theme). -/
def applyOp (w : Workspace) : EditOp → Workspace
  | .setBar themeKey barName value =>
    match w.lookup themeKey with
    | some _ => onColors themeKey (assignKey barName (some value)) w
    | none => w ++ [(themeKey, { style := some "pc", colors := some [(barName, some value)] })]
  | .deleteBar themeKey barName =>
    onColors themeKey (fun colors => colors.filter fun entry => entry.1 != barName) w
  | .renameBar themeKey fromName toName =>
    onColors themeKey
      (fun colors =>
        match colors.lookup fromName with
        | none => colors
        | some _ =>
          (colors.filter fun entry => entry.1 != toName).map fun entry =>
            if entry.1 == fromName then (toName, entry.2) else entry)
      w
  | .moveBar themeKey barName delta => onColors themeKey (moveEntry barName delta) w
  | .addTheme themeKey kind =>
    match w.lookup themeKey with
    | some _ => w
    | none => w ++ [(themeKey, { style := some kind, colors := some [] })]
  | .copyTheme fromKey toKey =>
    match w.lookup fromKey with
    | some sec => assignKey toKey sec w
    | none => w
  | .deleteTheme themeKey => w.filter fun entry => entry.1 != themeKey

/-- Modelled from the spec: `buildWorkspaceData(base)` of the absent
`state-store.js`, "Workspace == merge(BaseConfig, EditOverlay), a pure
function". -/
def buildWorkspaceData (st : StoreState (List EditOp)) (base : Workspace) : Workspace :=
  st.edits.foldl applyOp base

/-- Record one more edit in the overlay. -/
def push (st : StoreState (List EditOp)) (op : EditOp) : StoreState (List EditOp) :=
  { st with edits := st.edits ++ [op] }

/-- Modelled from the spec: `selectTheme` of the absent `state-store.js`,
which "with no existing bar in that theme leaves barName empty/null rather
than guessing one"; with bars present the first one is selected. -/
def selectTheme (st : StoreState (List EditOp)) (themeKey : Key) (base : Workspace) :
    StoreState (List EditOp) :=
  let names : List Key :=
    match (buildWorkspaceData st base).lookup themeKey with
    | some sec => (sec.colors.getD []).map Prod.fst
    | none => []
  { st with selected := some ⟨themeKey, names.head?⟩ }

end SpecStore

/-- Modelled from the spec: the class `StateStore` of the absent
`state-store.js`, following §4.2: every mutation writes only to the overlay,
`resetEdits` clears it, `hasAnyEdits` tells whether it is non-empty, and
`selectBar`/`selectTheme` update the persisted selection. The spec names the
commit operation `setBarValue`; `setEditedBarValue`, which `confirmDraft`
calls, is given the same effect and never throws. -/
def specStore : StateStore (List SpecStore.EditOp) where
  buildWorkspaceData := SpecStore.buildWorkspaceData
  hasAnyEdits st := !st.edits.isEmpty
  resetEdits st := { st with edits := [] }
  selectBar st sectionKey barName := { st with selected := some ⟨sectionKey, some barName⟩ }
  selectTheme := SpecStore.selectTheme
  addTheme st themeKey kind := SpecStore.push st (.addTheme themeKey kind)
  copyTheme st fromKey toKey _ := SpecStore.push st (.copyTheme fromKey toKey)
  deleteTheme st themeKey := SpecStore.push st (.deleteTheme themeKey)
  setBarValue st themeKey barName value _ := SpecStore.push st (.setBar themeKey barName value)
  setEditedBarValue st themeKey barName value _ :=
    Except.ok (SpecStore.push st (.setBar themeKey (propKey barName) value))
  renameBar st themeKey fromName toName _ :=
    SpecStore.push st (.renameBar themeKey fromName toName)
  deleteBar st themeKey barName _ := SpecStore.push st (.deleteBar themeKey barName)
  moveBar st themeKey barName delta _ := SpecStore.push st (.moveBar themeKey barName delta)

/-- Modelled from the spec: `adjustBarValueAbsolute` of the absent
`bar-edit.js` is only pinned down at the zero delta ("applying delta (0,0,0)
is the identity transform exactly") and in shape ("preserving shape"). This
stand-in returns the ramp unchanged for the zero delta and otherwise tags
every colour with the delta, which is enough to tell results apart. -/
def sampleAdjust (v : BarValue) (h s l : Int) : BarValue :=
  if h = 0 ∧ s = 0 ∧ l = 0 then v
  else
    let tag := fun (c : String) => c ++ "+" ++ toString h ++ "," ++ toString s ++ "," ++ toString l
    match v with
    | .ramp colors => .ramp (colors.map tag)
    | .dual left right => .dual (left.map tag) (right.map tag)

/-! ## Sample states -/

/-- A five-step ramp of greens. -/
def greens : BarValue := .ramp ["#003300", "#006600", "#009900", "#00cc00", "#00ff00"]

/-- A five-step ramp of reds. -/
def reds : BarValue := .ramp ["#330000", "#660000", "#990000", "#cc0000", "#ff0000"]

/-- A five-step ramp of blues. -/
def blues : BarValue := .ramp ["#000033", "#000066", "#000099", "#0000cc", "#0000ff"]

/-- A base configuration: theme "default" (style "pc") with bars "health"
and "air". -/
def sampleBase : Workspace :=
  [("default", { style := some "pc", colors := some [("health", some greens), ("air", some blues)] })]

/-- The state after loading `sampleBase` with nothing selected. -/
def loaded : App (List SpecStore.EditOp) :=
  { store := { selected := none, percent := 1, smooth := false, edits := [] }
    baseData := some sampleBase
    draft := none
    log := [] }

/-- The bar "health" selected, with a clean draft on it. -/
def cleanOnHealth : App (List SpecStore.EditOp) :=
  selectBar specStore loaded "default" "health" true

/-- The bar "health" selected, its draft edited to `reds` and not committed. -/
def dirtyOnHealth : App (List SpecStore.EditOp) :=
  setDraftValue specStore cleanOnHealth "default" (some "health") reds

/-- The sample store with a commit that throws, as when the overlay cannot
be saved. Every other method is that of `specStore`. -/
def failingStore : StateStore (List SpecStore.EditOp) :=
  { specStore with
    setEditedBarValue := fun _ _ _ _ _ => Except.error "QuotaExceededError: storage is full" }

/-! ## Loading and persisting the configuration text -/

/-- The browser's `localStorage` as `BarsApp` uses it: three calls, each of
which may throw. `σ` is the state of the storage. -/
structure LocalStorage (σ : Type) where
  getItem : σ → String → Except String (Option String)
  setItem : σ → String → String → Except String σ
  removeItem : σ → String → Except String σ

/-- The fields of `BarsApp` that loading touches beside the draft controller's:
the raw text, the file name, the parse error kept for the upload dialog, the
key of the stored text, and the state of `localStorage` behind them. -/
structure Session (E σ : Type) where
  app : App E
  rawText : Option String
  fileName : Option String
  uploadModalError : Option String
  fileStorageKey : String
  storage : σ

section Loading

variable {E σ : Type}

/-- Method `BarsApp.loadUiJson5TextFromStorage` (app.js 149-156). The result
is `Except.ok` when the method returns and `Except.error` when it throws. -/
def loadUiJson5TextFromStorage (L : LocalStorage σ) (sess : Session E σ) :
    Except String (Option String) :=
  match L.getItem sess.storage sess.fileStorageKey with
  | Except.ok (some raw) => Except.ok (if raw.length > 0 then some raw else none)
  | Except.ok none => Except.ok none
  | Except.error _ => Except.ok none

/-- Method `BarsApp.saveUiJson5TextToStorage` (app.js 158-164). -/
def saveUiJson5TextToStorage (L : LocalStorage σ) (sess : Session E σ) (rawText : String) :
    Except String (Session E σ) :=
  match L.setItem sess.storage sess.fileStorageKey rawText with
  | Except.ok storage => Except.ok { sess with storage := storage }
  | Except.error _ => Except.ok sess

/-- Method `BarsApp.clearStoredUiJson5` (app.js 166-172). -/
def clearStoredUiJson5 (L : LocalStorage σ) (sess : Session E σ) : Except String (Session E σ) :=
  match L.removeItem sess.storage sess.fileStorageKey with
  | Except.ok storage => Except.ok { sess with storage := storage }
  | Except.error _ => Except.ok sess

/-- The expression `fileName || null`. -/
def fileNameOrNull : Option String → Option String
  | some name => if truthy name then some name else none
  | none => none

/-- The text of `BarsApp.friendlyParseAlert` (app.js 140-147); `err` is
`String(err)`. -/
def friendlyParseMessage (err : String) : String :=
  "ui.json5 failed to parse.\n\n" ++ "Yes, it\x27s probably your fault (or mine).\n" ++
    "Fix the file and upload again.\n\n" ++ "Error: " ++ err

/-- The `catch` block of `BarsApp.loadUiJson5FromText` (app.js 123-133), run
on the state the `try` block had reached when `err` was thrown. -/
def loadFailed (sess : Session E σ) (rawText : String) (fileName : Option String)
    (err : String) : Session E σ :=
  { sess with
    app :=
      { sess.app with
        baseData := none
        log := sess.app.log ++ [Event.alert (friendlyParseMessage err)] }
    rawText := some rawText
    fileName := fileNameOrNull fileName
    uploadModalError := some err }

/-- Method `BarsApp.loadUiJson5FromText` (app.js 105-134). `parse` stands for
`parseJson5ObjectLiteral`, which evaluates the text as JavaScript: it is given
the session, returns the session as the evaluation left it, and either the
value of the text or the error thrown. `migrate` stands for
`stateStore.migrateLegacyEdits`. -/
def loadUiJson5FromText (S : StateStore E)
    (migrate : StoreState E → Workspace → StoreState E) (L : LocalStorage σ)
    (parse : String → Session E σ → Session E σ × Except String Workspace)
    (sess : Session E σ) (rawText : String) (fileName : Option String) : Session E σ :=
  match parse rawText sess with
  | (sess, Except.error err) => loadFailed sess rawText fileName err
  | (sess, Except.ok baseData) =>
    let sess :=
      { sess with
        app := { sess.app with baseData := some baseData }
        rawText := some rawText
        fileName := fileNameOrNull fileName }
    match saveUiJson5TextToStorage L sess rawText with
    | Except.error err => loadFailed sess rawText fileName err
    | Except.ok sess =>
      let app := { sess.app with store := migrate sess.app.store baseData }
      let app :=
        match app.store.selected with
        | some sel => startDraft S app sel.sectionKey sel.barName
        | none => { app with draft := none }
      { sess with app := renderAll S app }

end Loading

/-- A `localStorage` that works: an association list of keys and texts. -/
def memoryStorage : LocalStorage (List (String × String)) where
  getItem items key := Except.ok (items.lookup key)
  setItem items key text := Except.ok (assignKey key text items)
  removeItem items key := Except.ok (items.filter fun entry => entry.1 != key)

/-- A `localStorage` whose every call throws, as when storage is disabled. -/
def brokenStorage : LocalStorage (List (String × String)) where
  getItem _ _ := Except.error "SecurityError: access is denied"
  setItem _ _ _ := Except.error "QuotaExceededError: storage is full"
  removeItem _ _ := Except.error "SecurityError: access is denied"

/-- A stand-in for the JavaScript evaluation of the text: one text that
evaluates to `sampleBase`, every other text a syntax error; a text that is a
syntax error runs no code, so the session is returned as it was. -/
def sampleParse {E σ : Type} (text : String) (sess : Session E σ) :
    Session E σ × Except String Workspace :=
  (sess,
    if text = "sample" then Except.ok sampleBase
    else Except.error "SyntaxError: Unexpected token")

/-- A session with `sampleBase` loaded from the text "sample", the bar
"health" selected and its draft edited but not committed. -/
def sampleSession : Session (List SpecStore.EditOp) (List (String × String)) :=
  { app := dirtyOnHealth
    rawText := some "sample"
    fileName := some "ui.json5"
    uploadModalError := none
    fileStorageKey := "trx.tools.uiBars.uiJson5.v1"
    storage := [("trx.tools.uiBars.uiJson5.v1", "sample")] }

/-- A `migrateLegacyEdits` for an overlay that needs no upgrade. -/
def noMigration (st : StoreState (List SpecStore.EditOp)) (_base : Workspace) :
    StoreState (List SpecStore.EditOp) :=
  st

/-- The sample session after an upload of a text that does not parse. -/
def afterBadUpload : Session (List SpecStore.EditOp) (List (String × String)) :=
  loadUiJson5FromText specStore noMigration memoryStorage sampleParse sampleSession "default: ,,"
    (some "bad.json5")

/-! ## The views: swatch changes and the variant of a theme

`EditorView.applySwatchChange` inspects the shape of the value it is given,
so the values of this part are JavaScript values: strings, arrays (whose
empty slots read as `undefined`), `null` and `undefined`. -/

/-- A JavaScript value as it can occur in a bar's entry of `colors`. -/
inductive JsValue where
  | undefined
  | null
  | str (s : String)
  | arr (items : List JsValue)
  deriving Repr, Inhabited

/-- A theme as the views receive it. -/
structure JsSection where
  style : Option String
  colors : Option (List (Key × JsValue))

/-- Lower-casing of one character; only `A`-`Z` matter for the comparison
with "ps1", since no other character lower-cases to `p`, `s` or `1`. -/
def lowerChar (c : Char) : Char :=
  if 'A' ≤ c ∧ c ≤ 'Z' then Char.ofNat (c.toNat + 32) else c

/-- The string method `toLowerCase`. -/
def toLowerCase (s : String) : String :=
  String.mk (s.data.map lowerChar)

/-- The expression `String(section.style || "").toLowerCase()`, which
`EditorView.render`, `renderBarManager`, `applySwatchChange` and
`BarsListView.render` each compute. -/
def styleOf (style : Option String) : String :=
  toLowerCase (style.getD "")

/-- The test `value == null`. -/
def JsValue.isNullish : JsValue → Bool
  | .undefined => true
  | .null => true
  | _ => false

/-- The test `Array.isArray(value)`. -/
def JsValue.isArray : JsValue → Bool
  | .arr _ => true
  | _ => false

/-- The expression `value[i]` for an array or a string. -/
def JsValue.index : JsValue → Nat → JsValue
  | .arr items, i => items.getD i .undefined
  | .str s, i =>
    match s.data.get? i with
    | some c => .str (String.singleton c)
    | none => .undefined
  | _, _ => .undefined

/-- The expression `Array(n).fill(color)`. -/
def arrayFill (n : Nat) (color : String) : List JsValue :=
  List.replicate n (.str color)

/-- The assignment `items[i] = v`: inside the array it replaces the entry,
beyond its end it lengthens the array, leaving empty slots in between. -/
def assignIndex (items : List JsValue) (i : Nat) (v : JsValue) : List JsValue :=
  if i < items.length then items.set i v
  else items ++ List.replicate (i - items.length) .undefined ++ [v]

/-- The expression `Array.isArray(x) ? [...x] : Array(steps).fill("#000000")`. -/
def copyOrDefault (barColorSteps : Nat) : JsValue → List JsValue
  | .arr items => items
  | _ => arrayFill barColorSteps "#000000"

/-- The expression `section && section.colors ? section.colors[barName] : null`. -/
def currentValue (sec : Option JsSection) (barName : Key) : JsValue :=
  match sec with
  | none => .null
  | some sec =>
    match sec.colors with
    | none => .null
    | some colors => (colors.lookup barName).getD .undefined

/-- Method `EditorView.applySwatchChange` (editor-view.js 603-630).
`ps1RampIndex` is `null`, 0 or 1. -/
def applySwatchChange (barColorSteps : Nat) (sec : Option JsSection) (_sectionKey : Key)
    (barName : Key) (ps1RampIndex : Option Nat) (colorIndex : Nat) (colorHex : String) :
    JsValue :=
  let current := currentValue sec barName
  if current.isNullish then current
  else
    let style := styleOf (sec.bind fun sec => sec.style)
    if style == "ps1" then
      let left :=
        if current.isArray then copyOrDefault barColorSteps (current.index 0)
        else arrayFill barColorSteps "#000000"
      let right :=
        if current.isArray then copyOrDefault barColorSteps (current.index 1)
        else arrayFill barColorSteps "#000000"
      if ps1RampIndex == some 1 then
        .arr [.arr left, .arr (assignIndex right colorIndex (.str colorHex))]
      else .arr [.arr (assignIndex left colorIndex (.str colorHex)), .arr right]
    else .arr (assignIndex (copyOrDefault barColorSteps current) colorIndex (.str colorHex))

/-- The rows of swatches that `EditorView.renderBarEditor` draws
(editor-view.js 155-160 with `renderPs1Colors`/`renderPcColors`): for each row
the `ps1RampIndex` it carries and the ramp it shows. `style` is the
lower-cased style that `render` passes in. -/
def colorRows (style : String) (value : JsValue) : List (Option Nat × JsValue) :=
  if style == "ps1" then [(some 0, value.index 0), (some 1, value.index 1)]
  else [(none, value)]

/-- The value that the "New" button of `EditorView.renderBarManager` seeds a
bar with (editor-view.js 393-397). -/
def newBarValue (barColorSteps : Nat) (style : Option String) : JsValue :=
  if styleOf style == "ps1" then
    .arr [.arr (arrayFill barColorSteps "#000000"), .arr (arrayFill barColorSteps "#000000")]
  else .arr (arrayFill barColorSteps "#000000")

/-- The variant shown in a panel header by `BarsListView.render`
(bars-list-view.js 57-59). -/
def themeLabel (style : Option String) : String :=
  if styleOf style == "ps1" then "ps1" else "pc"

/-- A value is a pair `[left, right]` of two arrays. -/
def JsValue.IsPair (v : JsValue) : Prop :=
  ∃ left right, v = .arr [.arr left, .arr right]

/-- The number of entries of the ramp that `applySwatchChange` starts from:
the length of the array, or `barColorSteps` for the default ramp that
replaces a value that is not an array. -/
def rampLength (barColorSteps : Nat) : JsValue → Nat
  | .arr items => items.length
  | _ => barColorSteps

/-- A theme of style "pc" whose bar "health" holds only three colours. -/
def shortSection : JsSection :=
  { style := some "pc"
    colors := some [("health", .arr [.str "#003300", .str "#006600", .str "#009900"])] }

/-- A theme of style "PS1" whose bar "health" holds ramps of three and seven
colours. -/
def unevenSection : JsSection :=
  { style := some "PS1"
    colors := some
      [("health",
          .arr
            [.arr [.str "#003300", .str "#006600", .str "#009900"],
              .arr
                [.str "#000011", .str "#000022", .str "#000033", .str "#000044", .str "#000055",
                  .str "#000066", .str "#000077"]])] }

/-! ## The theme and bar managers of the editor view

The click handlers that `EditorView.renderThemeManager` and
`renderBarManager` install. A handler is run on the answers the user gives
to its `window.prompt` dialogs (`none` when a dialog is dismissed) and
yields the alerts it shows and the callbacks of `this.handlers` it invokes,
in order. -/

/-- The workspace as the views receive it: theme keys mapped to themes, an
entry possibly being `null`. -/
abbrev JsWorkspace := List (Key × Option JsSection)

/-- The characters that the string method `trim` removes: the white space and
line terminators of ECMAScript. -/
def isWhiteSpace (c : Char) : Bool :=
  let n := c.toNat
  n == 9 || n == 10 || n == 11 || n == 12 || n == 13 || n == 32 || n == 160 || n == 5760 ||
    (8192 ≤ n && n ≤ 8202) || n == 8232 || n == 8233 || n == 8239 || n == 8287 ||
    n == 12288 || n == 65279

/-- The string method `trim`. -/
def jsTrim (s : String) : String :=
  String.mk ((s.data.dropWhile isWhiteSpace).rdropWhile isWhiteSpace)

/-- The expression `(window.prompt(...) || "").trim()`. -/
def promptedText (answer : Option String) : String :=
  jsTrim (answer.getD "")

/-- The expression `workspace[key]`, `none` standing for `null`/`undefined`. -/
def themeAt (workspace : JsWorkspace) (key : Key) : Option JsSection :=
  (workspace.lookup key).join

/-- The test `theme.colors && theme.colors[name] != null`. -/
def hasBar (theme : JsSection) (name : Key) : Bool :=
  !(currentValue (some theme) name).isNullish

/-- What a click handler does towards the user and the controller. -/
inductive ViewCall where
  | alert (message : String)
  | onAddTheme (themeKey : Key) (kind : String)
  | onCopyTheme (fromKey toKey : Key)
  | onRenameTheme (fromKey toKey : Key)
  | onAddBar (themeKey barName : Key) (value : JsValue)
  | onCopyBar (themeKey fromName toName : Key)
  | onRenameBar (themeKey fromName toName : Key)

/-- Whether a call is one of the mutating callbacks (not an alert). -/
def ViewCall.isCallback : ViewCall → Bool
  | .alert _ => false
  | _ => true

/-- The theme "Add" button (editor-view.js 284-299). -/
def addThemeClick (workspace : JsWorkspace) (kindAnswer keyAnswer : Option String) :
    List ViewCall :=
  let kind := toLowerCase (promptedText kindAnswer)
  if kind != "pc" && kind != "ps1" then []
  else
    let key := promptedText keyAnswer
    if key.length == 0 then []
    else if (themeAt workspace key).isSome then [.alert "Theme key already exists."]
    else [.onAddTheme key kind]

/-- The theme "Copy" button (editor-view.js 301-315); `selectValue` is the
value of the theme dropdown. -/
def copyThemeClick (workspace : JsWorkspace) (selectValue : String) (keyAnswer : Option String) :
    List ViewCall :=
  if selectValue.length == 0 then []
  else
    let key := promptedText keyAnswer
    if key.length == 0 then []
    else if (themeAt workspace key).isSome then [.alert "Theme key already exists."]
    else [.onCopyTheme selectValue key]

/-- The theme "Rename" button (editor-view.js 317-332). -/
def renameThemeClick (workspace : JsWorkspace) (selectValue : String)
    (toAnswer : Option String) : List ViewCall :=
  let fromKey := selectValue
  if fromKey.length == 0 then []
  else
    let toKey := promptedText toAnswer
    if toKey.length == 0 || toKey == fromKey then []
    else if (themeAt workspace toKey).isSome then [.alert "Theme key already exists."]
    else [.onRenameTheme fromKey toKey]

/-- The theme that `renderBarManager` manages (editor-view.js 355-369): the
selected theme with its key, the selected bar name and `hasSelection`; `none`
when the method returns before it creates any button. -/
def managedTheme (workspace : JsWorkspace) (selected : Option Selection) :
    Option (Key × JsSection × Option Key × Bool) :=
  match selected with
  | none => none
  | some sel =>
    match themeAt workspace sel.sectionKey with
    | none => none
    | some theme =>
      let hasSelection :=
        match sel.barName with
        | none => false
        | some barName => hasBar theme barName
      some (sel.sectionKey, theme, sel.barName, hasSelection)

/-- The bar "New" button (editor-view.js 380-397). -/
def newBarClick (barColorSteps : Nat) (workspace : JsWorkspace) (selected : Option Selection)
    (nameAnswer : Option String) : List ViewCall :=
  match managedTheme workspace selected with
  | none => []
  | some (themeKey, theme, _, _) =>
    let name := promptedText nameAnswer
    if name.length == 0 then []
    else if hasBar theme name then [.alert "Bar already exists."]
    else [.onAddBar themeKey name (newBarValue barColorSteps theme.style)]

/-- The bar "Dupe" button (editor-view.js 399-415). -/
def dupeBarClick (workspace : JsWorkspace) (selected : Option Selection)
    (toAnswer : Option String) : List ViewCall :=
  match managedTheme workspace selected with
  | some (themeKey, theme, some fromName, true) =>
    let toName := promptedText toAnswer
    if toName.length == 0 then []
    else if hasBar theme toName then [.alert "Bar already exists."]
    else [.onCopyBar themeKey fromName toName]
  | _ => []

/-- The bar "Rename" button (editor-view.js 417-433). -/
def renameBarClick (workspace : JsWorkspace) (selected : Option Selection)
    (toAnswer : Option String) : List ViewCall :=
  match managedTheme workspace selected with
  | some (themeKey, theme, some fromName, true) =>
    let toName := promptedText toAnswer
    if toName.length == 0 || toName == fromName then []
    else if hasBar theme toName then [.alert "Bar already exists."]
    else [.onRenameBar themeKey fromName toName]
  | _ => []

/-- A rendered workspace: theme "default" with the bars "health" and "air". -/
def sampleView : JsWorkspace :=
  [("default",
      some
        { style := some "pc"
          colors := some
            [("health", .arr [.str "#003300", .str "#006600"]),
              ("air", .arr [.str "#000033", .str "#000066"])] })]

/-! ## Export, the big preview and HTML escaping -/

/-- Method `BarsApp.buildExportText` (app.js 83-88). `stringify` stands for
`JSON.stringify(workspace, null, 2)`. -/
def buildExportText {E : Type} (S : StateStore E) (stringify : Workspace → String)
    (app : App E) : String :=
  stringify (S.buildWorkspaceData app.store (baseOrEmpty app))

/-- The part of the view state that the preview reads. -/
structure ViewState where
  selected : Option Selection
  percent : Rat
  smooth : Bool

/-- The size that `getBoundingClientRect` measures for the preview canvas. -/
structure CanvasRect where
  width : Rat
  height : Rat

/-- What one run of `redrawBigPreview` does: it draws, or it asks for an
animation frame whose callback runs `redrawBigPreview` with the arguments
given here. -/
inductive PreviewEffect (Θ : Type) where
  | drawBarPreview (theme : Θ) (percent : Rat) (smooth : Bool) (barColorSteps : Nat)
  | requestAnimationFrame (sectionKey barName : Key) (sec : JsSection) (barValue : JsValue)
      (state : ViewState)

/-- Method `EditorView.redrawBigPreview` (editor-view.js 194-211). `canvas` is
`none` when `bigPreviewCanvasEl` is null and otherwise the size measured
during this run; `buildThemeFromSection` is the function of `theme.js`. -/
def redrawBigPreview {Θ : Type} (buildThemeFromSection : JsSection → JsValue → Nat → Θ)
    (barColorSteps : Nat) (canvas : Option CanvasRect) (sectionKey barName : Key)
    (sec : JsSection) (barValue : JsValue) (state : ViewState) : List (PreviewEffect Θ) :=
  match canvas with
  | none => []
  | some rect =>
    let theme := buildThemeFromSection sec barValue barColorSteps
    if rect.width ≤ 0 ∨ rect.height ≤ 0 then
      [.requestAnimationFrame sectionKey barName sec barValue state]
    else [.drawBarPreview theme state.percent state.smooth barColorSteps]

/-- The string method `replaceAll` for a pattern of one character. -/
def replaceAllChar (pattern : Char) (replacement : String) (s : String) : String :=
  String.mk (s.data.flatMap fun c => if c = pattern then replacement.data else [c])

/-- The double quote character. -/
def quoteChar : Char := Char.ofNat 34

/-- The apostrophe character. -/
def aposChar : Char := Char.ofNat 39

/-- Function `escapeHtml` (dom.js 22-29): five replacements, in this order. -/
def escapeHtml (text : String) : String :=
  replaceAllChar aposChar "&#39;"
    (replaceAllChar quoteChar "&quot;"
      (replaceAllChar '>' "&gt;" (replaceAllChar '<' "&lt;" (replaceAllChar '&' "&amp;" text))))

/-- The five entities that `escapeHtml` writes. -/
def entities : List String := ["&amp;", "&lt;", "&gt;", "&quot;", "&#39;"]

/-- The text that replaces one character, all five replacements taken at once. -/
def escapeChar (c : Char) : List Char :=
  if c = '&' then "&amp;".data
  else if c = '<' then "&lt;".data
  else if c = '>' then "&gt;".data
  else if c = quoteChar then "&quot;".data
  else if c = aposChar then "&#39;".data
  else [c]

/-- A base configuration whose theme "default" holds the single bar "health". -/
def soloBase : Workspace :=
  [("default", { style := some "pc", colors := some [("health", some greens)] })]

/-- The state after loading `soloBase` and selecting its only bar. -/
def soloSelected : App (List SpecStore.EditOp) :=
  selectBar specStore
    { store := { selected := none, percent := 1, smooth := false, edits := [] }
      baseData := some soloBase
      draft := none
      log := [] }
    "default" "health" true

/-! ## The write in place of `buildWorkspaceWithDraft`

The assignment `workspace[sectionKey].colors[barName] = draft.value` (app.js
356) changes the `colors` object of the workspace that `buildWorkspaceData`
returned. Whether the base configuration or the overlay see the change
depends on whether the store handed out their own object or a fresh one. -/

/-- Who else holds the `colors` object of a theme of the workspace that
`buildWorkspaceData` returned: nobody (a fresh object), the base
configuration, or the edit overlay. -/
inductive Holder where
  | fresh
  | base
  | overlay
  deriving DecidableEq, Repr

/-- The assignment that `buildWorkspaceWithDraft` performs, if the guard of
app.js 349-355 passes: the theme key, the bar name and the value written. -/
def draftAssignment {E : Type} (S : StateStore E) (app : App E) : Option (Key × Key × BarValue) :=
  match app.draft with
  | none => none
  | some d =>
    match d.barName, (S.buildWorkspaceData app.store (baseOrEmpty app)).lookup d.sectionKey with
    | some barName, some sec =>
      match sec.colors with
      | none => none
      | some _ => some (d.sectionKey, barName, d.value)
    | _, _ => none

/-- The assignment `colors[barName] = value` seen through a configuration
that holds the same `colors` object for the theme `themeKey`. -/
def writeColor (themeKey barName : Key) (value : BarValue) (w : Workspace) : Workspace :=
  w.map fun entry =>
    if entry.1 == themeKey then
      (entry.1, { entry.2 with colors := entry.2.colors.map (assignKey barName (some value)) })
    else entry

/-- Method `BarsApp.buildWorkspaceWithDraft` (app.js 347-359) with its write
in place: the workspace returned, `baseData` as it reads after the call, and
whether an object of the overlay was written. `holder` tells, for each theme
of the workspace the store returned, who else holds its `colors` object. -/
def buildWorkspaceWithDraftInPlace {E : Type} (S : StateStore E) (holder : Key → Holder)
    (app : App E) : Workspace × Option Workspace × Bool :=
  match draftAssignment S app with
  | none => (buildWorkspaceWithDraft S app, app.baseData, false)
  | some (themeKey, barName, value) =>
    match holder themeKey with
    | .fresh => (buildWorkspaceWithDraft S app, app.baseData, false)
    | .base =>
      (buildWorkspaceWithDraft S app, app.baseData.map (writeColor themeKey barName value), false)
    | .overlay => (buildWorkspaceWithDraft S app, app.baseData, true)

/-- A base configuration whose theme "default" holds a bar named "null". -/
def nullBarBase : Workspace :=
  [("default", { style := some "pc", colors := some [("null", some greens)] })]

/-- The state after `startDraft("default", null)` over `nullBarBase`, as
`renderAll` calls it for a selection without a bar name, and an edit of that
draft to reds. -/
def nullBarDraft : App (List SpecStore.EditOp) :=
  setDraftValue specStore
    (startDraft specStore
      { store := { selected := some ⟨"default", none⟩, percent := 1, smooth := false, edits := [] }
        baseData := some nullBarBase
        draft := none
        log := [] }
      "default" none)
    "default" none reds

/-! ## Basic facts about the operations -/

section Lemmas

variable {E : Type}

theorem startDraft_store (S : StateStore E) (app : App E) (sectionKey : Key)
    (barName : Option Key) : (startDraft S app sectionKey barName).store = app.store := by
  unfold startDraft
  dsimp only
  split <;> rfl

theorem startDraft_baseData (S : StateStore E) (app : App E) (sectionKey : Key)
    (barName : Option Key) : (startDraft S app sectionKey barName).baseData = app.baseData := by
  unfold startDraft
  dsimp only
  split <;> rfl

theorem startDraft_log (S : StateStore E) (app : App E) (sectionKey : Key)
    (barName : Option Key) :
    (startDraft S app sectionKey barName).log = app.log ++ [Event.startDraft sectionKey barName] := by
  unfold startDraft
  dsimp only
  split <;> rfl

theorem startDraft_draft (S : StateStore E) (app : App E) (sectionKey : Key)
    (barName : Option Key) :
    (startDraft S app sectionKey barName).draft =
      (lookupBar (S.buildWorkspaceData app.store (baseOrEmpty app)) sectionKey barName).map
        fun v => ⟨sectionKey, barName, v, v, ⟨0, 0, 0⟩, false⟩ := by
  unfold startDraft
  dsimp only
  split <;> rename_i h <;> simp [baseOrEmpty] at h ⊢ <;> simp [baseOrEmpty, h]

theorem renderAll_of_draft (S : StateStore E) (app : App E) (d : Draft)
    (h : app.draft = some d) : renderAll S app = app := by
  unfold renderAll
  split
  · rename_i h1 _
    rw [h] at h1
    cases h1
  · rfl

theorem setDraftValue_own (S : StateStore E) (app : App E) (d : Draft) (value : BarValue)
    (h : app.draft = some d) :
    setDraftValue S app d.sectionKey d.barName value =
      { app with draft := some { d with value := value, dirty := true } } := by
  unfold setDraftValue
  simp [h]

theorem setDraftHsl_of_draft (adjust : BarValue → Int → Int → Int → BarValue) (app : App E)
    (d : Draft) (h s l : Int) (hd : app.draft = some d) :
    setDraftHsl adjust app h s l =
      { app with
        draft := some
          { d with hsl := ⟨h, s, l⟩, value := adjust d.baseValueSnapshot h s l, dirty := true } } := by
  unfold setDraftHsl
  simp [hd]

theorem resetDraft_of_draft (S : StateStore E) (app : App E) (d : Draft)
    (hd : app.draft = some d) :
    resetDraft S app =
      { app with
        draft := some { d with value := d.baseValueSnapshot, hsl := ⟨0, 0, 0⟩, dirty := false } } := by
  unfold resetDraft
  simp only [hd]
  exact renderAll_of_draft S _ _ rfl

theorem resetDraft_of_none (S : StateStore E) (app : App E) (hd : app.draft = none) :
    resetDraft S app = app := by
  unfold resetDraft
  simp [hd]

/-- Edits of the existing draft change its value, delta and dirty flag only. -/
theorem applyEdits_frame (S : StateStore E) (adjust : BarValue → Int → Int → Int → BarValue)
    (edits : List DraftEdit) :
    ∀ (app : App E) (d : Draft), app.draft = some d →
      ∃ value hsl dirty,
        applyEdits S adjust app edits =
          { app with draft := some { d with value := value, hsl := hsl, dirty := dirty } } := by
  induction edits with
  | nil =>
    intro app d hd
    exact ⟨d.value, d.hsl, d.dirty, by simp [applyEdits, ← hd]⟩
  | cons e rest ih =>
    intro app d hd
    have hstep :
        ∃ value hsl dirty,
          applyEdit S adjust app e =
            { app with draft := some { d with value := value, hsl := hsl, dirty := dirty } } := by
      cases e with
      | setValue value =>
        refine ⟨value, d.hsl, true, ?_⟩
        simp only [applyEdit, hd]
        exact setDraftValue_own S app d value hd
      | setHsl h s l =>
        refine ⟨adjust d.baseValueSnapshot h s l, ⟨h, s, l⟩, true, ?_⟩
        simp only [applyEdit]
        exact setDraftHsl_of_draft adjust app d h s l hd
    obtain ⟨value, hsl, dirty, hstep⟩ := hstep
    obtain ⟨value2, hsl2, dirty2, hrest⟩ :=
      ih (applyEdit S adjust app e) { d with value := value, hsl := hsl, dirty := dirty }
        (by rw [hstep])
    refine ⟨value2, hsl2, dirty2, ?_⟩
    simp only [applyEdits, List.foldl_cons] at hrest ⊢
    rw [hrest, hstep]

theorem applyEdits_of_none (S : StateStore E) (adjust : BarValue → Int → Int → Int → BarValue)
    (edits : List DraftEdit) :
    ∀ app : App E, app.draft = none → applyEdits S adjust app edits = app := by
  induction edits with
  | nil => intro app _; rfl
  | cons e rest ih =>
    intro app hd
    have hstep : applyEdit S adjust app e = app := by
      cases e with
      | setValue value => simp [applyEdit, hd]
      | setHsl h s l => simp [applyEdit, setDraftHsl, hd]
    simp only [applyEdits, List.foldl_cons, hstep]
    exact ih app hd

theorem setDraftValue_dirty (S : StateStore E) (app : App E) (sectionKey : Key)
    (barName : Option Key) (value : BarValue) (d : Draft)
    (hd : (setDraftValue S app sectionKey barName value).draft = some d) : d.dirty = true := by
  unfold setDraftValue at hd
  dsimp only at hd
  split at hd
  · rename_i h; rw [h] at hd; cases hd
  · simp only [Option.some.injEq] at hd
    rw [← hd]

/-- Each of the four draft operations leaves a draft that, when clean, equals
its snapshot. -/
theorem runCmd_clean (S : StateStore E) (adjust : BarValue → Int → Int → Int → BarValue)
    (app : App E) (cmd : DraftCmd) : CleanMeansUnchanged (runCmd S adjust app cmd).draft := by
  intro d hd hclean
  cases cmd with
  | startDraft sectionKey barName =>
    simp only [runCmd, startDraft_draft] at hd
    cases hl : lookupBar (S.buildWorkspaceData app.store (baseOrEmpty app)) sectionKey barName with
    | none => rw [hl] at hd; cases hd
    | some v =>
      rw [hl] at hd
      simp only [Option.map_some', Option.some.injEq] at hd
      rw [← hd]
  | setDraftValue sectionKey barName value =>
    have := setDraftValue_dirty S app sectionKey barName value d hd
    rw [this] at hclean
    cases hclean
  | setDraftHsl hh ss ll =>
    cases h0 : app.draft with
    | none =>
      simp only [runCmd, setDraftHsl, h0] at hd
      cases hd
    | some d0 =>
      simp only [runCmd] at hd
      rw [setDraftHsl_of_draft adjust app d0 hh ss ll h0] at hd
      simp only [Option.some.injEq] at hd
      rw [← hd] at hclean
      cases hclean
  | resetDraft =>
    cases h0 : app.draft with
    | none =>
      simp only [runCmd] at hd
      rw [resetDraft_of_none S app h0, h0] at hd
      cases hd
    | some d0 =>
      simp only [runCmd] at hd
      rw [resetDraft_of_draft S app d0 h0] at hd
      simp only [Option.some.injEq] at hd
      rw [← hd]

theorem runCmds_clean (S : StateStore E) (adjust : BarValue → Int → Int → Int → BarValue)
    (cmds : List DraftCmd) :
    ∀ app : App E, CleanMeansUnchanged app.draft →
      CleanMeansUnchanged (runCmds S adjust app cmds).draft := by
  induction cmds with
  | nil => intro app h; exact h
  | cons cmd rest ih =>
    intro app _
    simp only [runCmds, List.foldl_cons]
    exact ih _ (runCmd_clean S adjust app cmd)

theorem sameColors_self (normalize : String → Option String) (v : BarValue) :
    sameColors normalize v v = true := by
  simp [sameColors]

theorem startDraft_clean (S : StateStore E) (app : App E) (sectionKey : Key)
    (barName : Option Key) (d : Draft)
    (hd : (startDraft S app sectionKey barName).draft = some d) : d.dirty = false := by
  rw [startDraft_draft] at hd
  cases hl : lookupBar (S.buildWorkspaceData app.store (baseOrEmpty app)) sectionKey barName with
  | none => rw [hl] at hd; cases hd
  | some v =>
    rw [hl] at hd
    simp only [Option.map_some', Option.some.injEq] at hd
    rw [← hd]

theorem renderAll_store (S : StateStore E) (app : App E) : (renderAll S app).store = app.store := by
  unfold renderAll
  split
  · exact startDraft_store ..
  · rfl

theorem renderAll_baseData (S : StateStore E) (app : App E) :
    (renderAll S app).baseData = app.baseData := by
  unfold renderAll
  split
  · exact startDraft_baseData ..
  · rfl

/-- What `renderAll` adds to the trace: nothing, or one `startDraft` call. -/
theorem renderAll_log (S : StateStore E) (app : App E) :
    ∃ rest,
      (renderAll S app).log = app.log ++ rest ∧
        ∀ e ∈ rest, e.isConfirm = false ∧ e.isWrite = false := by
  unfold renderAll
  split
  · rename_i sel _ _
    refine ⟨[Event.startDraft sel.sectionKey sel.barName], startDraft_log .., ?_⟩
    intro e he
    simp only [List.mem_singleton] at he
    subst he
    exact ⟨rfl, rfl⟩
  · exact ⟨[], by simp, by simp⟩

theorem renderAll_clean (S : StateStore E) (app : App E)
    (h : ∀ d, app.draft = some d → d.dirty = false) :
    ∀ d, (renderAll S app).draft = some d → d.dirty = false := by
  unfold renderAll
  split
  · intro d hd
    exact startDraft_clean S _ _ _ d hd
  · exact h

theorem maybePrompt_fst (S : StateStore E) (app : App E) (nextSectionKey nextBarName : Option Key)
    (ok : Bool) : (maybePromptToResolveDraft S app nextSectionKey nextBarName ok).1 = true := by
  unfold maybePromptToResolveDraft
  split
  · rfl
  · dsimp only
    split
    · rfl
    · split
      · split <;> rfl
      · rfl

/-- The prompt's "save" branch when the store write succeeds. -/
theorem maybePrompt_save (S : StateStore E) (app : App E) (d : Draft)
    (nextSectionKey nextBarName : Option Key) (store : StoreState E) (hd : app.draft = some d)
    (hdirty : d.dirty = true) (hneeds : needsPrompt d nextSectionKey nextBarName = true)
    (hwrite :
      S.setEditedBarValue app.store d.sectionKey d.barName d.value (baseOrEmpty app) =
        Except.ok store) :
    (maybePromptToResolveDraft S app nextSectionKey nextBarName true).2 =
      renderAll S
        { app with
          store := store
          draft := none
          log :=
            app.log ++
              [Event.confirm savePrompt true,
                Event.setEditedBarValue d.sectionKey d.barName d.value] } := by
  unfold maybePromptToResolveDraft
  simp only [hd, hdirty, hneeds, bne_self_eq_false, Bool.false_eq_true, if_false, if_true,
    beq_self_eq_true]
  unfold confirmDraft
  simp only [hd, baseOrEmpty] at hwrite ⊢
  simp only [hwrite, List.append_assoc, List.singleton_append]

/-- The prompt's "discard" branch. -/
theorem maybePrompt_discard (S : StateStore E) (app : App E) (d : Draft)
    (nextSectionKey nextBarName : Option Key) (hd : app.draft = some d)
    (hdirty : d.dirty = true) (hneeds : needsPrompt d nextSectionKey nextBarName = true) :
    (maybePromptToResolveDraft S app nextSectionKey nextBarName false).2 =
      renderAll S
        { app with draft := none, log := app.log ++ [Event.confirm savePrompt false] } := by
  unfold maybePromptToResolveDraft
  simp only [hd, hdirty, hneeds, bne_self_eq_false, Bool.false_eq_true, if_false, if_true]
  unfold cancelDraft
  simp only [hd]
  rfl

/-- Without a prompt the state is returned unchanged. -/
theorem maybePrompt_quiet (S : StateStore E) (app : App E) (d : Draft)
    (nextSectionKey nextBarName : Option Key) (ok : Bool) (hd : app.draft = some d)
    (hneeds : needsPrompt d nextSectionKey nextBarName = false) :
    maybePromptToResolveDraft S app nextSectionKey nextBarName ok = (true, app) := by
  unfold maybePromptToResolveDraft
  simp only [hd, hneeds]
  split <;> simp

theorem selectBar_proceeds (S : StateStore E) (app : App E) (sectionKey barName : Key)
    (ok : Bool) :
    selectBar S app sectionKey barName ok =
      renderAll S
        { startDraft S (maybePromptToResolveDraft S app (some sectionKey) (some barName) ok).2
            sectionKey (some barName) with
          store :=
            S.selectBar (maybePromptToResolveDraft S app (some sectionKey) (some barName) ok).2.store
              sectionKey barName } := by
  unfold selectBar
  have h := maybePrompt_fst S app (some sectionKey) (some barName) ok
  cases hm : maybePromptToResolveDraft S app (some sectionKey) (some barName) ok with
  | mk proceed app1 =>
    rw [hm] at h
    simp only at h
    subst h
    simp [startDraft_store]

/-- The trace and the store after `selectBar`, from the state `app1` that
`maybePromptToResolveDraft` left. -/
theorem selectBar_tail (S : StateStore E) (app1 : App E) (sectionKey barName : Key) :
    (∃ rest,
        (renderAll S
              { startDraft S app1 sectionKey (some barName) with
                store := S.selectBar app1.store sectionKey barName }).log =
            app1.log ++ Event.startDraft sectionKey (some barName) :: rest ∧
          ∀ e ∈ rest, e.isConfirm = false ∧ e.isWrite = false) ∧
      (renderAll S
            { startDraft S app1 sectionKey (some barName) with
              store := S.selectBar app1.store sectionKey barName }).store =
        S.selectBar app1.store sectionKey barName ∧
      ∀ d,
        (renderAll S
              { startDraft S app1 sectionKey (some barName) with
                store := S.selectBar app1.store sectionKey barName }).draft = some d →
          d.dirty = false := by
  refine ⟨?_, renderAll_store .., ?_⟩
  · obtain ⟨rest, hlog, hrest⟩ := renderAll_log S
      { startDraft S app1 sectionKey (some barName) with
        store := S.selectBar app1.store sectionKey barName }
    refine ⟨rest, ?_, hrest⟩
    rw [hlog]
    simp [startDraft_log]
  · apply renderAll_clean
    intro d hd
    exact startDraft_clean S app1 sectionKey (some barName) d hd

/-- A draft that `renderAll` creates is a fresh snapshot of the selected bar. -/
theorem renderAll_fresh (S : StateStore E) (app : App E) (d2 : Draft) (h : app.draft = none)
    (hd2 : (renderAll S app).draft = some d2) :
    app.store.selected = some ⟨d2.sectionKey, d2.barName⟩ ∧
      d2.dirty = false ∧ d2.hsl = ⟨0, 0, 0⟩ ∧ d2.value = d2.baseValueSnapshot ∧
      lookupBar (S.buildWorkspaceData app.store (baseOrEmpty app)) d2.sectionKey d2.barName =
        some d2.value := by
  unfold renderAll at hd2
  split at hd2
  · rename_i sel _ hsel
    rw [startDraft_draft] at hd2
    cases hl : lookupBar (S.buildWorkspaceData app.store (baseOrEmpty app)) sel.sectionKey
        sel.barName with
    | none => rw [hl] at hd2; cases hd2
    | some v =>
      rw [hl] at hd2
      simp only [Option.map_some', Option.some.injEq] at hd2
      subst hd2
      exact ⟨hsel, rfl, rfl, rfl, hl⟩
  · rw [h] at hd2
    cases hd2

theorem renderAll_unselected (S : StateStore E) (app : App E) (h : app.draft = none)
    (hsel : app.store.selected = none) : (renderAll S app).draft = none := by
  unfold renderAll
  split
  · rename_i hsel2
    rw [hsel] at hsel2
    cases hsel2
  · exact h

theorem confirmDraft_ok (S : StateStore E) (app : App E) (d : Draft) (store : StoreState E)
    (hd : app.draft = some d)
    (hwrite :
      S.setEditedBarValue app.store d.sectionKey d.barName d.value (baseOrEmpty app) =
        Except.ok store) :
    confirmDraft S app =
      renderAll S
        { app with
          store := store
          draft := none
          log := app.log ++ [Event.setEditedBarValue d.sectionKey d.barName d.value] } := by
  unfold confirmDraft
  simp only [hd]
  rw [hwrite]

theorem confirmDraft_error (S : StateStore E) (app : App E) (d : Draft) (err : String)
    (hd : app.draft = some d)
    (hwrite :
      S.setEditedBarValue app.store d.sectionKey d.barName d.value (baseOrEmpty app) =
        Except.error err) :
    confirmDraft S app = { app with log := app.log ++ [Event.alert ("Save failed: " ++ err)] } := by
  unfold confirmDraft
  simp only [hd]
  rw [hwrite]

theorem cancelDraft_of_draft (S : StateStore E) (app : App E) (d : Draft)
    (hd : app.draft = some d) : cancelDraft S app = renderAll S { app with draft := none } := by
  unfold cancelDraft
  simp only [hd]

/-- The call of `setDraftValue` for a bar that the draft does not target
starts a draft on that bar first. -/
theorem setDraftValue_other (S : StateStore E) (app : App E) (sectionKey : Key)
    (barName : Option Key) (value : BarValue)
    (h : app.draft = none ∨ ∃ d, app.draft = some d ∧ (d.sectionKey ≠ sectionKey ∨ d.barName ≠ barName)) :
    (setDraftValue S app sectionKey barName value).draft =
      (lookupBar (S.buildWorkspaceData app.store (baseOrEmpty app)) sectionKey barName).map
        fun v => ⟨sectionKey, barName, v, value, ⟨0, 0, 0⟩, true⟩ := by
  have hstart :
      (setDraftValue S app sectionKey barName value).draft =
        (startDraft S app sectionKey barName).draft.map
          fun d => { d with value := value, dirty := true } := by
    unfold setDraftValue
    rcases h with h | ⟨d, h, hne⟩
    · simp only [h]
      split <;> rename_i h2 <;> simp [h2]
    · have hcond : (d.sectionKey != sectionKey || d.barName != barName) = true := by
        rcases hne with hne | hne
        · simp [hne]
        · simp [hne]
      simp only [h, hcond, if_true]
      split <;> rename_i h2 <;> simp [h2]
  rw [hstart, startDraft_draft]
  cases lookupBar (S.buildWorkspaceData app.store (baseOrEmpty app)) sectionKey barName <;> rfl

theorem setDraftValue_store (S : StateStore E) (app : App E) (sectionKey : Key)
    (barName : Option Key) (value : BarValue) :
    (setDraftValue S app sectionKey barName value).store = app.store ∧
      (setDraftValue S app sectionKey barName value).baseData = app.baseData := by
  unfold setDraftValue
  dsimp only
  split
  · split
    · exact ⟨startDraft_store .., startDraft_baseData ..⟩
    · split
      · exact ⟨startDraft_store .., startDraft_baseData ..⟩
      · exact ⟨rfl, rfl⟩
  · split
    · exact ⟨startDraft_store .., startDraft_baseData ..⟩
    · split
      · exact ⟨startDraft_store .., startDraft_baseData ..⟩
      · exact ⟨rfl, rfl⟩

theorem assignIndex_length (items : List JsValue) (i : Nat) (v : JsValue) :
    (assignIndex items i v).length = max items.length (i + 1) := by
  unfold assignIndex
  split
  · simp; omega
  · simp; omega

theorem assignIndex_get (items : List JsValue) (i : Nat) (v : JsValue) :
    (assignIndex items i v)[i]? = some v := by
  unfold assignIndex
  split
  · rename_i h
    simp [List.getElem?_set, h]
  · rename_i h
    have hlen : (items ++ List.replicate (i - items.length) JsValue.undefined).length = i := by
      simp; omega
    rw [List.getElem?_append_right (by omega)]
    simp [hlen]

/-- An array in which a string was assigned is not a pair of two arrays. -/
theorem assignIndex_not_pair (items : List JsValue) (i : Nat) (s : String) :
    ¬ (JsValue.arr (assignIndex items i (.str s))).IsPair := by
  rintro ⟨left, right, h⟩
  injection h with h
  have hget := assignIndex_get items i (.str s)
  rw [h] at hget
  match i, hget with
  | 0, hget => simp at hget
  | 1, hget => simp at hget
  | n + 2, hget => simp at hget

theorem copyOrDefault_length (barColorSteps : Nat) (v : JsValue) :
    (copyOrDefault barColorSteps v).length = rampLength barColorSteps v := by
  cases v <;> simp [copyOrDefault, rampLength, arrayFill]

/-- Reading an entry of a value that is not an array gives no array. -/
theorem index_of_non_array (barColorSteps : Nat) (v : JsValue) (i : Nat)
    (h : v.isArray = false) : rampLength barColorSteps (v.index i) = barColorSteps := by
  cases v with
  | undefined => rfl
  | null => rfl
  | str s =>
    simp only [JsValue.index]
    split <;> rfl
  | arr items => simp [JsValue.isArray] at h

/-- A ramp of default colours is not a pair of two arrays. -/
theorem arrayFill_not_pair (n : Nat) (color : String) :
    ¬ (JsValue.arr (arrayFill n color)).IsPair := by
  rintro ⟨left, right, h⟩
  injection h with h
  cases n with
  | zero => simp [arrayFill] at h
  | succ n => simp [arrayFill, List.replicate_succ] at h

theorem dropWhile_rdropWhile_dropWhile {α : Type} (p : α → Bool) (xs : List α) :
    ((xs.dropWhile p).rdropWhile p).dropWhile p = (xs.dropWhile p).rdropWhile p := by
  have hpre : (xs.dropWhile p).rdropWhile p <+: xs.dropWhile p := List.rdropWhile_prefix p _
  have hhead := List.head?_dropWhile_not p xs
  cases hys : xs.dropWhile p with
  | nil => simp
  | cons y ys =>
    rw [hys] at hpre hhead
    simp only [List.head?_cons] at hhead
    cases hzs : (y :: ys).rdropWhile p with
    | nil => rfl
    | cons z zs =>
      rw [hzs] at hpre
      obtain ⟨t, ht⟩ := hpre
      simp only [List.cons_append, List.cons.injEq] at ht
      obtain ⟨hz, _⟩ := ht
      subst hz
      have hz : p z = false := by simpa using hhead
      simp [List.dropWhile_cons, hz]

/-- Trimming a trimmed string changes nothing. -/
theorem jsTrim_idem (s : String) : jsTrim (jsTrim s) = jsTrim s := by
  unfold jsTrim
  simp only [dropWhile_rdropWhile_dropWhile, List.rdropWhile_idempotent]

theorem ne_empty_of_length (s : String) (h : (s.length == 0) = false) : s ≠ "" := by
  intro hs
  subst hs
  simp at h

theorem managedTheme_some (workspace : JsWorkspace) (selected : Option Selection)
    (themeKey : Key) (theme : JsSection) (barName : Option Key) (hasSelection : Bool)
    (h : managedTheme workspace selected = some (themeKey, theme, barName, hasSelection)) :
    ∃ sel,
      selected = some sel ∧ sel.sectionKey = themeKey ∧ sel.barName = barName ∧
        themeAt workspace sel.sectionKey = some theme := by
  unfold managedTheme at h
  split at h
  · cases h
  · rename_i sel
    split at h
    · cases h
    · rename_i theme2 htheme
      simp only [Option.some.injEq, Prod.mk.injEq] at h
      obtain ⟨h1, h2, h3, _⟩ := h
      subst h1 h2 h3
      exact ⟨sel, rfl, rfl, rfl, htheme⟩

theorem lookup_assignKey {α : Type} (name : Key) (v : α) (l : List (Key × α)) (k : Key) :
    (assignKey name v l).lookup k = if k = name then some v else l.lookup k := by
  induction l with
  | nil =>
    by_cases hk : k = name
    · simp [assignKey, List.lookup, hk]
    · have hb : (k == name) = false := by simpa using hk
      simp [assignKey, List.lookup, hk, hb]
  | cons entry rest ih =>
    obtain ⟨key, x⟩ := entry
    by_cases hkey : key = name
    · subst hkey
      by_cases hk : k = key
      · simp [assignKey, List.lookup, hk]
      · have hb : (k == key) = false := by simpa using hk
        simp [assignKey, List.lookup, hk, hb]
    · by_cases hk : k = key
      · subst hk
        simp [assignKey, List.lookup, hkey]
      · simp only [assignKey, beq_iff_eq, hkey, if_false, List.lookup]
        have hb : (k == key) = false := by simpa using hk
        rw [hb, ih]

theorem keys_assignKey {α : Type} (name : Key) (v : α) (l : List (Key × α)) (x : α)
    (h : l.lookup name = some x) : (assignKey name v l).map Prod.fst = l.map Prod.fst := by
  induction l with
  | nil => simp [List.lookup] at h
  | cons entry rest ih =>
    obtain ⟨key, y⟩ := entry
    by_cases hkey : key = name
    · subst hkey
      simp [assignKey]
    · have hb : (name == key) = false := by
        simpa using fun h2 : name = key => hkey h2.symm
      simp only [List.lookup, hb] at h
      simp [assignKey, hkey, ih h]

/-- A draft on another bar does not change what the workspace shows for a bar. -/
theorem lookupBar_overlay_other {E : Type} (S : StateStore E) (app : App E) (themeKey : Key)
    (barName : Key)
    (h :
      app.draft = none ∨
        ∃ d, app.draft = some d ∧ (d.sectionKey ≠ themeKey ∨ d.barName ≠ some barName)) :
    lookupBar (buildWorkspaceWithDraft S app) themeKey (some barName) =
      lookupBar (S.buildWorkspaceData app.store (baseOrEmpty app)) themeKey (some barName) := by
  unfold buildWorkspaceWithDraft
  rcases h with h | ⟨d, h, hne⟩
  · simp only [h]
  · simp only [h]
    split
    · rename_i draftBar sec hb hsec
      split
      · rfl
      · rename_i colors hc
        unfold lookupBar
        by_cases hkey : themeKey = d.sectionKey
        · subst hkey
          have hbar : barName ≠ draftBar := by
            rcases hne with hne | hne
            · exact absurd rfl hne
            · intro hsame
              subst hsame
              exact hne hb
          rw [lookup_assignKey, if_pos rfl, hsec]
          simp only [hc, propKey]
          rw [lookup_assignKey, if_neg hbar]
        · rw [lookup_assignKey, if_neg hkey]
    · rfl

/-- A draft on a bar whose theme is present with colours shows its value
in the workspace. -/
theorem lookupBar_overlay_own {E : Type} (S : StateStore E) (app : App E) (d : Draft)
    (barName : Key) (sec : Section) (colors : List (Key × Option BarValue))
    (hd : app.draft = some d) (hb : d.barName = some barName)
    (hsec : (S.buildWorkspaceData app.store (baseOrEmpty app)).lookup d.sectionKey = some sec)
    (hc : sec.colors = some colors) :
    lookupBar (buildWorkspaceWithDraft S app) d.sectionKey (some barName) = some d.value := by
  unfold buildWorkspaceWithDraft
  simp only [hd, hb, hsec, hc]
  unfold lookupBar
  rw [lookup_assignKey, if_pos rfl]
  simp only [propKey]
  rw [lookup_assignKey, if_pos rfl]
  rfl

theorem escape_steps (l : List Char) :
    ((((l.flatMap fun c => if c = '&' then "&amp;".data else [c]).flatMap fun c =>
              if c = '<' then "&lt;".data else [c]).flatMap fun c =>
            if c = '>' then "&gt;".data else [c]).flatMap fun c =>
          if c = quoteChar then "&quot;".data else [c]).flatMap
        (fun c => if c = aposChar then "&#39;".data else [c]) =
      l.flatMap escapeChar := by
  induction l with
  | nil => rfl
  | cons c rest ih =>
    simp only [List.flatMap_cons, List.flatMap_append, ih]
    congr 1
    unfold escapeChar
    by_cases h1 : c = '&'
    · subst h1; decide
    · by_cases h2 : c = '<'
      · subst h2; decide
      · by_cases h3 : c = '>'
        · subst h3; decide
        · by_cases h4 : c = quoteChar
          · subst h4; decide
          · by_cases h5 : c = aposChar
            · subst h5; decide
            · simp [h1, h2, h3, h4, h5]

theorem escapeHtml_data (text : String) : (escapeHtml text).data = text.data.flatMap escapeChar := by
  unfold escapeHtml replaceAllChar
  exact escape_steps text.data

theorem escapeChar_clean (c x : Char) (hx : x ∈ escapeChar c) :
    x ≠ '<' ∧ x ≠ '>' ∧ x ≠ quoteChar ∧ x ≠ aposChar := by
  unfold escapeChar at hx
  split at hx
  · revert x; decide
  · split at hx
    · revert x; decide
    · split at hx
      · revert x; decide
      · split at hx
        · revert x; decide
        · split at hx
          · revert x; decide
          · simp only [List.mem_singleton] at hx
            subst hx
            rename_i h1 h2 h3 h4 h5
            exact ⟨h2, h3, h4, h5⟩

theorem no_amp_inside (L pre tail : List Char) (hL : '&' ∉ L) (h : L = pre ++ '&' :: tail) :
    False := by
  apply hL
  rw [h]
  simp

theorem amp_heads_entity (c : Char) (pre tail : List Char)
    (h : escapeChar c = pre ++ '&' :: tail) : ∃ e ∈ entities, e.data = '&' :: tail := by
  have hcases :
      (∃ e ∈ entities, escapeChar c = e.data) ∨ (escapeChar c = [c] ∧ c ≠ '&') := by
    unfold escapeChar
    split
    · exact Or.inl ⟨"&amp;", by decide, rfl⟩
    · split
      · exact Or.inl ⟨"&lt;", by decide, rfl⟩
      · split
        · exact Or.inl ⟨"&gt;", by decide, rfl⟩
        · split
          · exact Or.inl ⟨"&quot;", by decide, rfl⟩
          · split
            · exact Or.inl ⟨"&#39;", by decide, rfl⟩
            · rename_i h1 _ _ _ _
              exact Or.inr ⟨rfl, h1⟩
  rcases hcases with ⟨e, he, hdata⟩ | ⟨hdata, hne⟩
  · rw [hdata] at h
    refine ⟨e, he, ?_⟩
    cases pre with
    | nil => simpa using h
    | cons p pre2 =>
      exfalso
      have htail : ∃ t, e.data = '&' :: t ∧ '&' ∉ t := by
        simp only [entities, List.mem_cons, List.mem_singleton, List.not_mem_nil, or_false] at he
        rcases he with he | he | he | he | he <;> subst he <;> exact ⟨_, rfl, by decide⟩
      obtain ⟨t, ht, hnot⟩ := htail
      rw [ht] at h
      simp only [List.cons_append, List.cons.injEq] at h
      exact no_amp_inside t pre2 tail hnot h.2
  · rw [hdata] at h
    cases pre with
    | nil =>
      simp only [List.nil_append, List.cons.injEq] at h
      exact absurd h.1 hne
    | cons p pre2 =>
      simp only [List.cons_append, List.cons.injEq] at h
      have := h.2
      simp at this

theorem amp_begins_entity (l : List Char) :
    ∀ pre post, l.flatMap escapeChar = pre ++ '&' :: post →
      ∃ e ∈ entities, ∃ rest, '&' :: post = e.data ++ rest := by
  induction l with
  | nil =>
    intro pre post h
    simp at h
  | cons c rest ih =>
    intro pre post h
    rw [List.flatMap_cons] at h
    rcases List.append_eq_append_iff.mp h with ⟨a, hpre, hrest⟩ | ⟨mid, hc, hpost⟩
    · exact ih a post hrest
    · cases mid with
      | nil =>
        simp only [List.nil_append] at hpost
        exact ih [] post (by simpa using hpost.symm)
      | cons x mid2 =>
        simp only [List.cons_append, List.cons.injEq] at hpost
        obtain ⟨hx, hpost⟩ := hpost
        subst hx
        obtain ⟨e, he, hdata⟩ := amp_heads_entity c pre mid2 hc
        exact ⟨e, he, rest.flatMap escapeChar, by rw [hdata, hpost]; rfl⟩

end Lemmas

/-! ## Starting a draft -/

section StartDraft

variable {E : Type}

/-- C7: when the bar resolves to a non-null value `v` in the merged workspace
`buildWorkspaceData(base)`, `startDraft` leaves a Clean draft
`{sectionKey, barName, baseValueSnapshot = v, value = v, hsl = (0,0,0),
dirty = false}`; neither the store nor the base configuration changes, and a
later change of the draft's value changes neither the snapshot nor the
merged workspace. -/
theorem startDraft_resolved (S : StateStore E) (app : App E) (sectionKey : Key)
    (barName : Option Key) (v : BarValue)
    (h : lookupBar (S.buildWorkspaceData app.store (baseOrEmpty app)) sectionKey barName = some v) :
    (startDraft S app sectionKey barName).draft =
        some
          { sectionKey := sectionKey
            barName := barName
            baseValueSnapshot := v
            value := v
            hsl := ⟨0, 0, 0⟩
            dirty := false } ∧
      (startDraft S app sectionKey barName).store = app.store ∧
      (startDraft S app sectionKey barName).baseData = app.baseData ∧
      ∀ v2 : BarValue,
        (setDraftValue S (startDraft S app sectionKey barName) sectionKey barName v2).draft =
            some
              { sectionKey := sectionKey
                barName := barName
                baseValueSnapshot := v
                value := v2
                hsl := ⟨0, 0, 0⟩
                dirty := true } ∧
          lookupBar
              (S.buildWorkspaceData
                (setDraftValue S (startDraft S app sectionKey barName) sectionKey barName v2).store
                (baseOrEmpty app))
              sectionKey barName = some v := by
  have hd := startDraft_draft S app sectionKey barName
  rw [h] at hd
  refine ⟨hd, startDraft_store .., startDraft_baseData .., ?_⟩
  intro v2
  have hset :
      setDraftValue S (startDraft S app sectionKey barName) sectionKey barName v2 =
        { startDraft S app sectionKey barName with
          draft := some ⟨sectionKey, barName, v, v2, ⟨0, 0, 0⟩, true⟩ } := by
    unfold setDraftValue
    simp [hd]
  rw [hset]
  exact ⟨rfl, by simpa [startDraft_store] using h⟩

/-- Witness for C7: the bar "health" of theme "default" resolves to the
greens ramp in the sample workspace. -/
theorem startDraft_resolved_witness :
    (startDraft specStore loaded "default" (some "health")).draft =
        some
          { sectionKey := "default"
            barName := some "health"
            baseValueSnapshot := greens
            value := greens
            hsl := ⟨0, 0, 0⟩
            dirty := false } ∧
      (startDraft specStore loaded "default" (some "health")).store = loaded.store ∧
      (startDraft specStore loaded "default" (some "health")).baseData = loaded.baseData ∧
      ∀ v2 : BarValue,
        (setDraftValue specStore (startDraft specStore loaded "default" (some "health"))
              "default" (some "health") v2).draft =
            some
              { sectionKey := "default"
                barName := some "health"
                baseValueSnapshot := greens
                value := v2
                hsl := ⟨0, 0, 0⟩
                dirty := true } ∧
          lookupBar
              (specStore.buildWorkspaceData
                (setDraftValue specStore (startDraft specStore loaded "default" (some "health"))
                  "default" (some "health") v2).store
                (baseOrEmpty loaded))
              "default" (some "health") = some greens :=
  startDraft_resolved specStore loaded "default" (some "health") greens (by decide)

/-- C8: if the theme is absent from the merged workspace, has no `colors`
mapping, or holds no value (`undefined` or `null`) under `barName`, then
after `startDraft` the draft is null, whatever it was before, and the store
and the base configuration are unchanged. -/
theorem startDraft_unresolved (S : StateStore E) (app : App E) (sectionKey : Key)
    (barName : Option Key)
    (h :
      (S.buildWorkspaceData app.store (baseOrEmpty app)).lookup sectionKey = none ∨
        (∃ sec,
          (S.buildWorkspaceData app.store (baseOrEmpty app)).lookup sectionKey = some sec ∧
            sec.colors = none) ∨
          ∃ sec colors,
            (S.buildWorkspaceData app.store (baseOrEmpty app)).lookup sectionKey = some sec ∧
              sec.colors = some colors ∧
                (colors.lookup (propKey barName) = none ∨
                  colors.lookup (propKey barName) = some none)) :
    (startDraft S app sectionKey barName).draft = none ∧
      (startDraft S app sectionKey barName).store = app.store ∧
      (startDraft S app sectionKey barName).baseData = app.baseData := by
  refine ⟨?_, startDraft_store .., startDraft_baseData ..⟩
  rw [startDraft_draft]
  have hl : lookupBar (S.buildWorkspaceData app.store (baseOrEmpty app)) sectionKey barName = none := by
    unfold lookupBar
    rcases h with h | ⟨sec, h, hc⟩ | ⟨sec, colors, h, hc, hv | hv⟩
    · simp [h]
    · simp [h, hc]
    · simp [h, hc, hv]
    · simp [h, hc, hv]
  rw [hl]
  rfl

/-- Witness for C8: with a dirty draft on "health", starting a draft on the
bar "stamina", which theme "default" does not hold, leaves no draft. -/
theorem startDraft_unresolved_witness :
    (startDraft specStore dirtyOnHealth "default" (some "stamina")).draft = none ∧
      (startDraft specStore dirtyOnHealth "default" (some "stamina")).store = dirtyOnHealth.store ∧
      (startDraft specStore dirtyOnHealth "default" (some "stamina")).baseData =
        dirtyOnHealth.baseData :=
  startDraft_unresolved specStore dirtyOnHealth "default" (some "stamina")
    (Or.inr (Or.inr
      ⟨⟨some "pc", some [("health", some greens), ("air", some blues)]⟩,
        [("health", some greens), ("air", some blues)], by decide, rfl, Or.inl (by decide)⟩))

end StartDraft

/-! ## Editing and resetting a draft -/

section Editing

variable {E : Type}

/-- C9: with a draft present, `setDraftHsl(h, s, l)` sets the value to
`adjustBarValueAbsolute(baseValueSnapshot, h, s, l)`, records the delta and
leaves `sectionKey`, `barName` and `baseValueSnapshot` as they were; called
after any sequence of earlier `setDraftHsl`/`setDraftValue` calls on that
draft it produces the same draft as when called at once. -/
theorem setDraftHsl_from_snapshot (S : StateStore E)
    (adjust : BarValue → Int → Int → Int → BarValue) (app : App E) (d : Draft)
    (edits : List DraftEdit) (h s l : Int) (hd : app.draft = some d) :
    (setDraftHsl adjust app h s l).draft =
        some
          { sectionKey := d.sectionKey
            barName := d.barName
            baseValueSnapshot := d.baseValueSnapshot
            value := adjust d.baseValueSnapshot h s l
            hsl := ⟨h, s, l⟩
            dirty := true } ∧
      (setDraftHsl adjust (applyEdits S adjust app edits) h s l).draft =
        (setDraftHsl adjust app h s l).draft := by
  obtain ⟨value, hsl, dirty, hedit⟩ := applyEdits_frame S adjust edits app d hd
  rw [setDraftHsl_of_draft adjust app d h s l hd, hedit,
    setDraftHsl_of_draft adjust _ { d with value := value, hsl := hsl, dirty := dirty } h s l rfl]
  exact ⟨rfl, rfl⟩

/-- Witness for C9: on the dirty draft of "health", a swatch change to blues
and a slider move (40, 0, -5) are followed by the delta (10, 0, 0). -/
theorem setDraftHsl_from_snapshot_witness :
    (setDraftHsl sampleAdjust dirtyOnHealth 10 0 0).draft =
        some
          { sectionKey := "default"
            barName := some "health"
            baseValueSnapshot := greens
            value := sampleAdjust greens 10 0 0
            hsl := ⟨10, 0, 0⟩
            dirty := true } ∧
      (setDraftHsl sampleAdjust
            (applyEdits specStore sampleAdjust dirtyOnHealth [.setValue blues, .setHsl 40 0 (-5)])
            10 0 0).draft =
        (setDraftHsl sampleAdjust dirtyOnHealth 10 0 0).draft :=
  setDraftHsl_from_snapshot specStore sampleAdjust dirtyOnHealth
    ⟨"default", some "health", greens, reds, ⟨0, 0, 0⟩, true⟩
    [.setValue blues, .setHsl 40 0 (-5)] 10 0 0 (by decide)

/-- C10: `resetDraft` turns the draft into the same draft with
`value = baseValueSnapshot`, `hsl = (0,0,0)` and `dirty = false` (so
`sectionKey`, `barName` and `baseValueSnapshot` are kept), and changes
neither the store, the base configuration nor the trace; with no draft it
changes nothing. After `startDraft(s, b)` and any sequence of
`setDraftValue`/`setDraftHsl` calls on that bar, the draft it leaves is the
one `startDraft` created. -/
theorem resetDraft_restores (S : StateStore E)
    (adjust : BarValue → Int → Int → Int → BarValue) (app : App E) (sectionKey : Key)
    (barName : Option Key) (edits : List DraftEdit) :
    (resetDraft S (applyEdits S adjust (startDraft S app sectionKey barName) edits)).draft =
        (startDraft S app sectionKey barName).draft ∧
      (resetDraft S (applyEdits S adjust (startDraft S app sectionKey barName) edits)).store =
        app.store ∧
      (∀ app2 : App E,
        (resetDraft S app2).draft =
            app2.draft.map
              (fun d =>
                { sectionKey := d.sectionKey
                  barName := d.barName
                  baseValueSnapshot := d.baseValueSnapshot
                  value := d.baseValueSnapshot
                  hsl := ⟨0, 0, 0⟩
                  dirty := false }) ∧
          (resetDraft S app2).store = app2.store ∧
          (resetDraft S app2).baseData = app2.baseData ∧
          (resetDraft S app2).log = app2.log) ∧
      ∀ app2 : App E, resetDraft S { app2 with draft := none } = { app2 with draft := none } := by
  refine ⟨?_, ?_, ?_, ?_⟩
  · cases hs : (startDraft S app sectionKey barName).draft with
    | none =>
      rw [applyEdits_of_none S adjust edits _ hs, resetDraft_of_none S _ hs, hs]
    | some d0 =>
      obtain ⟨value, hsl, dirty, hedit⟩ := applyEdits_frame S adjust edits _ d0 hs
      rw [hedit, resetDraft_of_draft S _ _ rfl]
      have hd0 := startDraft_draft S app sectionKey barName
      rw [hs] at hd0
      cases hl : lookupBar (S.buildWorkspaceData app.store (baseOrEmpty app)) sectionKey barName with
      | none => rw [hl] at hd0; cases hd0
      | some v =>
        rw [hl] at hd0
        simp only [Option.map_some', Option.some.injEq] at hd0
        subst hd0
        rfl
  · cases hs : (startDraft S app sectionKey barName).draft with
    | none =>
      rw [applyEdits_of_none S adjust edits _ hs, resetDraft_of_none S _ hs, startDraft_store]
    | some d0 =>
      obtain ⟨value, hsl, dirty, hedit⟩ := applyEdits_frame S adjust edits _ d0 hs
      rw [hedit, resetDraft_of_draft S _ _ rfl]
      exact startDraft_store ..
  · intro app2
    cases hd : app2.draft with
    | none => rw [resetDraft_of_none S _ hd, hd]; exact ⟨rfl, rfl, rfl, rfl⟩
    | some d => rw [resetDraft_of_draft S _ d hd]; exact ⟨rfl, rfl, rfl, rfl⟩
  · intro app2
    exact resetDraft_of_none S _ rfl

end Editing

/-! ## The dirty flag -/

section Dirty

variable {E : Type}

/-- C5, as the code has it: in every state reached from a state without a
draft through `startDraft`, `setDraftValue`, `setDraftHsl` and `resetDraft`,
a draft whose value differs from its `baseValueSnapshot` under
colour-normalised comparison (for any normaliser) has `dirty = true`. -/
theorem dirty_of_value_differs (S : StateStore E)
    (adjust : BarValue → Int → Int → Int → BarValue) (normalize : String → Option String)
    (app : App E) (cmds : List DraftCmd) (d : Draft) (h0 : app.draft = none)
    (hd : (runCmds S adjust app cmds).draft = some d)
    (hne : sameColors normalize d.value d.baseValueSnapshot = false) : d.dirty = true := by
  have hinv : CleanMeansUnchanged (runCmds S adjust app cmds).draft :=
    runCmds_clean S adjust cmds app (by intro d hd; rw [h0] at hd; cases hd)
  cases hdirty : d.dirty with
  | true => rfl
  | false =>
    have hv := hinv d hd hdirty
    rw [hv, sameColors_self] at hne
    cases hne

/-- Witness for C5: a draft on "health" (greens) whose value was set to reds. -/
theorem dirty_of_value_differs_witness :
    (runCmds specStore sampleAdjust loaded
          [.startDraft "default" (some "health"),
            .setDraftValue "default" (some "health") reds]).draft =
        some ⟨"default", some "health", greens, reds, ⟨0, 0, 0⟩, true⟩ ∧
      sameColors some reds greens = false ∧
      (⟨"default", some "health", greens, reds, ⟨0, 0, 0⟩, true⟩ : Draft).dirty = true :=
  ⟨by decide, by decide,
    dirty_of_value_differs specStore sampleAdjust some loaded
      [.startDraft "default" (some "health"), .setDraftValue "default" (some "health") reds]
      ⟨"default", some "health", greens, reds, ⟨0, 0, 0⟩, true⟩ rfl (by decide) (by decide)⟩

/-- C5 fails as stated: after `startDraft` on "health", `setDraftValue` with
the very value of the snapshot, or `setDraftHsl(0, 0, 0)`, leaves a draft
with `dirty = true` whose value equals its snapshot under every
colour-normalised comparison. -/
theorem dirty_without_change :
    (∃ d,
        (runCmds specStore sampleAdjust loaded
              [.startDraft "default" (some "health"),
                .setDraftValue "default" (some "health") greens]).draft = some d ∧
          d.dirty = true ∧
          ∀ normalize, sameColors normalize d.value d.baseValueSnapshot = true) ∧
      ∃ d,
        (runCmds specStore sampleAdjust loaded
              [.startDraft "default" (some "health"), .setDraftHsl 0 0 0]).draft = some d ∧
          d.dirty = true ∧
          ∀ normalize, sameColors normalize d.value d.baseValueSnapshot = true :=
  ⟨⟨⟨"default", some "health", greens, greens, ⟨0, 0, 0⟩, true⟩, by decide, rfl,
      fun normalize => sameColors_self normalize greens⟩,
    ⟨⟨"default", some "health", greens, greens, ⟨0, 0, 0⟩, true⟩, by decide, rfl,
      fun normalize => sameColors_self normalize greens⟩⟩

end Dirty

/-! ## The conflict prompt -/

section Conflict

variable {E : Type}

/-- C3, as the code has it: for a dirty draft, `maybePromptToResolveDraft`
asks the user exactly once, before anything else, when the target is a
different bar (both names non-null, one of them differing from the
draft's), the cleared selection (null, null), or a theme-only target whose
theme differs from the draft's; for a theme-only target naming the draft's
own theme, a null theme with a bar name, and the draft's own bar, it
returns true and changes nothing without asking. -/
theorem maybePrompt_asks (S : StateStore E) (app : App E) (d : Draft)
    (nextSectionKey nextBarName : Option Key) (ok : Bool) (hd : app.draft = some d)
    (hdirty : d.dirty = true) :
    (((∃ s b,
            nextSectionKey = some s ∧ nextBarName = some b ∧
              (s ≠ d.sectionKey ∨ some b ≠ d.barName)) ∨
          (nextSectionKey = none ∧ nextBarName = none) ∨
          ∃ s, nextSectionKey = some s ∧ nextBarName = none ∧ s ≠ d.sectionKey) →
        ∃ rest,
          (maybePromptToResolveDraft S app nextSectionKey nextBarName ok).2.log =
              app.log ++ Event.confirm savePrompt ok :: rest ∧
            ∀ e ∈ rest, e.isConfirm = false) ∧
      (((nextSectionKey = some d.sectionKey ∧ nextBarName = none) ∨
          (nextSectionKey = none ∧ nextBarName ≠ none) ∨
          (nextSectionKey = some d.sectionKey ∧ nextBarName = d.barName ∧ nextBarName ≠ none)) →
        maybePromptToResolveDraft S app nextSectionKey nextBarName ok = (true, app)) := by
  constructor
  · intro htarget
    have hneeds : needsPrompt d nextSectionKey nextBarName = true := by
      rcases htarget with ⟨s, b, hs, hb, hne⟩ | ⟨hs, hb⟩ | ⟨s, hs, hb, hne⟩
      · subst hs hb
        rcases hne with hne | hne
        · simp [needsPrompt, hne]
        · simp [needsPrompt, hne]
      · subst hs hb
        simp [needsPrompt]
      · subst hs hb
        simp [needsPrompt, hne]
    cases ok with
    | true =>
      unfold maybePromptToResolveDraft
      simp only [hd, hdirty, hneeds, bne_self_eq_false, Bool.false_eq_true, if_false, if_true,
        beq_self_eq_true]
      unfold confirmDraft
      simp only [hd]
      split
      · obtain ⟨rest, hlog, hrest⟩ := renderAll_log S
          { app with
            store := ‹StoreState E›
            draft := none
            log :=
              app.log ++ [Event.confirm savePrompt true] ++
                [Event.setEditedBarValue d.sectionKey d.barName d.value] }
        refine ⟨Event.setEditedBarValue d.sectionKey d.barName d.value :: rest, ?_, ?_⟩
        · rw [hlog]
          simp
        · intro e he
          rcases List.mem_cons.mp he with he | he
          · subst he; rfl
          · exact (hrest e he).1
      · rename_i err _
        refine ⟨[Event.alert ("Save failed: " ++ err)], by simp, ?_⟩
        intro e he
        simp only [List.mem_singleton] at he
        subst he
        rfl
    | false =>
      rw [maybePrompt_discard S app d nextSectionKey nextBarName hd hdirty hneeds]
      obtain ⟨rest, hlog, hrest⟩ := renderAll_log S
        { app with draft := none, log := app.log ++ [Event.confirm savePrompt false] }
      refine ⟨rest, ?_, fun e he => (hrest e he).1⟩
      rw [hlog]
      simp
  · intro htarget
    apply maybePrompt_quiet S app d nextSectionKey nextBarName ok hd
    rcases htarget with ⟨hs, hb⟩ | ⟨hs, hb⟩ | ⟨hs, hb, hb2⟩
    · subst hs hb
      simp [needsPrompt]
    · subst hs
      cases nextBarName with
      | none => exact absurd rfl hb
      | some b => simp [needsPrompt]
    · subst hs
      cases nextBarName with
      | none => exact absurd rfl hb2
      | some b => simp [needsPrompt, hb]

/-- Witness for C3: with the dirty draft on "health", a request to switch to
the bar "air" prompts once, and a request for the draft's own bar does not. -/
theorem maybePrompt_asks_witness :
    (∃ rest,
        (maybePromptToResolveDraft specStore dirtyOnHealth (some "default") (some "air")
              true).2.log =
            dirtyOnHealth.log ++ Event.confirm savePrompt true :: rest ∧
          ∀ e ∈ rest, e.isConfirm = false) ∧
      maybePromptToResolveDraft specStore dirtyOnHealth (some "default") (some "health") true =
        (true, dirtyOnHealth) :=
  ⟨(maybePrompt_asks specStore dirtyOnHealth
        ⟨"default", some "health", greens, reds, ⟨0, 0, 0⟩, true⟩ (some "default") (some "air")
        true (by decide) rfl).1
      (Or.inl ⟨"default", "air", rfl, rfl, Or.inr (by decide)⟩),
    (maybePrompt_asks specStore dirtyOnHealth
        ⟨"default", some "health", greens, reds, ⟨0, 0, 0⟩, true⟩ (some "default") (some "health")
        true (by decide) rfl).2
      (Or.inr (Or.inr ⟨rfl, rfl, by decide⟩))⟩

/-- C3 fails as stated: with the dirty draft on "default"/"health", the
theme-only target ("default", null), which is not the draft's own bar, gets no
prompt: whatever the answer would be, the method returns true with the state
(and so the trace) unchanged. -/
theorem maybePrompt_same_theme_silent :
    dirtyOnHealth.draft = some ⟨"default", some "health", greens, reds, ⟨0, 0, 0⟩, true⟩ ∧
      maybePromptToResolveDraft specStore dirtyOnHealth (some "default") none true =
        (true, dirtyOnHealth) ∧
      maybePromptToResolveDraft specStore dirtyOnHealth (some "default") none false =
        (true, dirtyOnHealth) := by
  refine ⟨by decide, ?_, ?_⟩
  · exact maybePrompt_quiet specStore dirtyOnHealth
      ⟨"default", some "health", greens, reds, ⟨0, 0, 0⟩, true⟩ _ _ _ (by decide) (by decide)
  · exact maybePrompt_quiet specStore dirtyOnHealth
      ⟨"default", some "health", greens, reds, ⟨0, 0, 0⟩, true⟩ _ _ _ (by decide) (by decide)

/-- C4, as the code has it: `maybePromptToResolveDraft` returns true in every
state, for every target and every answer, so the callers never take their
early return: `clearSelection` always ends with no selection, and
`selectBar` and `selectTheme` always hand the new selection to the store. -/
theorem maybePrompt_never_aborts (S : StateStore E) (app : App E)
    (nextSectionKey nextBarName : Option Key) (sectionKey barName : Key) (ok : Bool) :
    (maybePromptToResolveDraft S app nextSectionKey nextBarName ok).1 = true ∧
      (clearSelection S app ok).store.selected = none ∧
      (selectBar S app sectionKey barName ok).store =
        S.selectBar (maybePromptToResolveDraft S app (some sectionKey) (some barName) ok).2.store
          sectionKey barName ∧
      (selectTheme S app sectionKey ok).store =
        S.selectTheme (maybePromptToResolveDraft S app (some sectionKey) none ok).2.store
          sectionKey (baseOrEmpty (maybePromptToResolveDraft S app (some sectionKey) none ok).2) := by
  refine ⟨maybePrompt_fst .., ?_, ?_, ?_⟩
  · unfold clearSelection
    have h := maybePrompt_fst S app none none ok
    cases hm : maybePromptToResolveDraft S app none none ok with
    | mk proceed app1 =>
      rw [hm] at h
      simp only at h
      subst h
      simp [renderAll_store]
  · rw [selectBar_proceeds, renderAll_store]
  · unfold selectTheme
    have h := maybePrompt_fst S app (some sectionKey) none ok
    cases hm : maybePromptToResolveDraft S app (some sectionKey) none ok with
    | mk proceed app1 =>
      rw [hm] at h
      simp only at h
      subst h
      simp only [bne_self_eq_false, Bool.false_eq_true, if_false, renderAll_store]
      unfold draftForSelection
      split
      · split
        · rw [startDraft_store]
        · rfl
      · rfl

/-- C4 fails as stated: with the dirty draft on "health" and the target bar
"air", no answer makes `maybePromptToResolveDraft` return anything but true,
and with either answer `selectBar` moves the selection to "air". -/
theorem maybePrompt_no_abort_answer :
    (¬ ∃ ok : Bool,
        (maybePromptToResolveDraft specStore dirtyOnHealth (some "default") (some "air") ok).1 ≠
          true) ∧
      (selectBar specStore dirtyOnHealth "default" "air" true).store.selected =
        some ⟨"default", some "air"⟩ ∧
      (selectBar specStore dirtyOnHealth "default" "air" false).store.selected =
        some ⟨"default", some "air"⟩ := by
  refine ⟨?_, by decide, by decide⟩
  rintro ⟨ok, hok⟩
  exact hok (maybePrompt_fst ..)

end Conflict

/-! ## Switching bars under a dirty draft -/

section Switching

variable {E : Type}

/-- C1, as the code has it: with a dirty draft on bar A and a bar B different
from A, `selectBar(B)` first asks the user and never aborts. If the answer
is OK and the store accepts the write, A's draft value is written to the
store under A's keys right after the prompt, before any draft is started,
and the store then receives the selection of B. If the answer is Cancel,
nothing is written: the edit is discarded and the store only receives the
selection of B. Either way the draft left behind is absent or clean. -/
theorem selectBar_resolves_dirty_draft (S : StateStore E) (app : App E) (d : Draft)
    (sectionKey barName : Key) (hd : app.draft = some d) (hdirty : d.dirty = true)
    (hne : sectionKey ≠ d.sectionKey ∨ some barName ≠ d.barName) :
    (∀ store,
        S.setEditedBarValue app.store d.sectionKey d.barName d.value (baseOrEmpty app) =
            Except.ok store →
          (∃ mid rest,
              (selectBar S app sectionKey barName true).log =
                  app.log ++
                    Event.confirm savePrompt true ::
                      Event.setEditedBarValue d.sectionKey d.barName d.value ::
                        (mid ++ Event.startDraft sectionKey (some barName) :: rest) ∧
                ∀ e ∈ mid ++ rest, e.isConfirm = false ∧ e.isWrite = false) ∧
            (selectBar S app sectionKey barName true).store =
              S.selectBar store sectionKey barName ∧
            ∀ d2, (selectBar S app sectionKey barName true).draft = some d2 → d2.dirty = false) ∧
      (∃ mid rest,
          (selectBar S app sectionKey barName false).log =
              app.log ++
                Event.confirm savePrompt false ::
                  (mid ++ Event.startDraft sectionKey (some barName) :: rest) ∧
            ∀ e ∈ mid ++ rest, e.isConfirm = false ∧ e.isWrite = false) ∧
        (selectBar S app sectionKey barName false).store =
          S.selectBar app.store sectionKey barName ∧
        ∀ d2, (selectBar S app sectionKey barName false).draft = some d2 → d2.dirty = false := by
  have hneeds : needsPrompt d (some sectionKey) (some barName) = true := by
    rcases hne with hne | hne
    · simp [needsPrompt, hne]
    · simp [needsPrompt, hne]
  constructor
  · intro store hwrite
    rw [selectBar_proceeds,
      maybePrompt_save S app d (some sectionKey) (some barName) store hd hdirty hneeds hwrite]
    obtain ⟨mid, hmid, hmidp⟩ := renderAll_log S
      { app with
        store := store
        draft := none
        log :=
          app.log ++
            [Event.confirm savePrompt true,
              Event.setEditedBarValue d.sectionKey d.barName d.value] }
    obtain ⟨⟨rest, hlog, hrest⟩, hstore, hclean⟩ :=
      selectBar_tail S
        (renderAll S
          { app with
            store := store
            draft := none
            log :=
              app.log ++
                [Event.confirm savePrompt true,
                  Event.setEditedBarValue d.sectionKey d.barName d.value] })
        sectionKey barName
    refine ⟨⟨mid, rest, ?_, ?_⟩, ?_, hclean⟩
    · rw [hlog, hmid]
      simp
    · intro e he
      rcases List.mem_append.mp he with he | he
      · exact hmidp e he
      · exact hrest e he
    · rw [hstore, renderAll_store]
  · rw [selectBar_proceeds,
      maybePrompt_discard S app d (some sectionKey) (some barName) hd hdirty hneeds]
    obtain ⟨mid, hmid, hmidp⟩ := renderAll_log S
      { app with draft := none, log := app.log ++ [Event.confirm savePrompt false] }
    obtain ⟨⟨rest, hlog, hrest⟩, hstore, hclean⟩ :=
      selectBar_tail S
        (renderAll S
          { app with draft := none, log := app.log ++ [Event.confirm savePrompt false] })
        sectionKey barName
    refine ⟨⟨mid, rest, ?_, ?_⟩, ?_, hclean⟩
    · rw [hlog, hmid]
      simp
    · intro e he
      rcases List.mem_append.mp he with he | he
      · exact hmidp e he
      · exact hrest e he
    · rw [hstore, renderAll_store]

/-- Witness for C1: the dirty draft on "health" (value reds) and the switch
to "air", answered with OK (the sample store accepts the write) and with
Cancel. -/
theorem selectBar_resolves_dirty_draft_witness :
    ((∃ mid rest,
          (selectBar specStore dirtyOnHealth "default" "air" true).log =
              dirtyOnHealth.log ++
                Event.confirm savePrompt true ::
                  Event.setEditedBarValue "default" (some "health") reds ::
                    (mid ++ Event.startDraft "default" (some "air") :: rest) ∧
            ∀ e ∈ mid ++ rest, e.isConfirm = false ∧ e.isWrite = false) ∧
        (selectBar specStore dirtyOnHealth "default" "air" true).store =
          specStore.selectBar
            (SpecStore.push dirtyOnHealth.store (.setBar "default" "health" reds))
            "default" "air" ∧
        ∀ d2,
          (selectBar specStore dirtyOnHealth "default" "air" true).draft = some d2 →
            d2.dirty = false) ∧
      (∃ mid rest,
          (selectBar specStore dirtyOnHealth "default" "air" false).log =
              dirtyOnHealth.log ++
                Event.confirm savePrompt false ::
                  (mid ++ Event.startDraft "default" (some "air") :: rest) ∧
            ∀ e ∈ mid ++ rest, e.isConfirm = false ∧ e.isWrite = false) ∧
        (selectBar specStore dirtyOnHealth "default" "air" false).store =
          specStore.selectBar dirtyOnHealth.store "default" "air" ∧
        ∀ d2,
          (selectBar specStore dirtyOnHealth "default" "air" false).draft = some d2 →
            d2.dirty = false :=
  ⟨(selectBar_resolves_dirty_draft specStore dirtyOnHealth
        ⟨"default", some "health", greens, reds, ⟨0, 0, 0⟩, true⟩ "default" "air" (by decide) rfl
        (Or.inr (by decide))).1
      (SpecStore.push dirtyOnHealth.store (.setBar "default" "health" reds)) rfl,
    (selectBar_resolves_dirty_draft specStore dirtyOnHealth
        ⟨"default", some "health", greens, reds, ⟨0, 0, 0⟩, true⟩ "default" "air" (by decide) rfl
        (Or.inr (by decide))).2⟩

/-- C1 fails as stated: with the dirty draft on "health" (value reds, not
committed), `selectBar("default", "air")` answered with Cancel neither
writes the edit to the store (the overlay stays empty, nothing is committed
and "health" still resolves to greens) nor aborts (the selection moves to
"air" and the draft is a clean draft on "air"). -/
theorem selectBar_cancel_discards :
    dirtyOnHealth.draft = some ⟨"default", some "health", greens, reds, ⟨0, 0, 0⟩, true⟩ ∧
      dirtyOnHealth.store.selected = some ⟨"default", some "health"⟩ ∧
      (selectBar specStore dirtyOnHealth "default" "air" false).store.edits = [] ∧
      (∀ e ∈ (selectBar specStore dirtyOnHealth "default" "air" false).log, e.isWrite = false) ∧
      lookupBar
          (specStore.buildWorkspaceData
            (selectBar specStore dirtyOnHealth "default" "air" false).store sampleBase)
          "default" (some "health") = some greens ∧
      (selectBar specStore dirtyOnHealth "default" "air" false).store.selected =
        some ⟨"default", some "air"⟩ ∧
      (selectBar specStore dirtyOnHealth "default" "air" false).draft =
        some ⟨"default", some "air", blues, blues, ⟨0, 0, 0⟩, false⟩ := by
  refine ⟨by decide, by decide, by decide, by decide, by decide, by decide, by decide⟩

/-- C2 fails on the code: with the dirty draft on "health" (value reds, not
committed), `moveBar("default", "health", 1)` asks nothing (the trace gains
one `startDraft` call and no prompt), leaves a clean draft holding greens,
and the store still resolves "health" to greens: the edit is gone. -/
theorem moveBar_drops_dirty_draft :
    dirtyOnHealth.draft = some ⟨"default", some "health", greens, reds, ⟨0, 0, 0⟩, true⟩ ∧
      (moveBar specStore dirtyOnHealth "default" "health" 1).log =
        dirtyOnHealth.log ++ [Event.startDraft "default" (some "health")] ∧
      (moveBar specStore dirtyOnHealth "default" "health" 1).draft =
        some ⟨"default", some "health", greens, greens, ⟨0, 0, 0⟩, false⟩ ∧
      (moveBar specStore dirtyOnHealth "default" "health" 1).store.edits =
        [SpecStore.EditOp.moveBar "default" "health" 1] ∧
      lookupBar
          (specStore.buildWorkspaceData
            (moveBar specStore dirtyOnHealth "default" "health" 1).store sampleBase)
          "default" (some "health") = some greens := by
  refine ⟨by decide, by decide, by decide, by decide, by decide⟩

/-- C6 fails on the code: from the state with "health" selected and a clean
draft on it, `clearSelection` (whatever the answer) leaves the selection
null while the draft on "health" still exists; and `addTheme("night", "pc")`
moves the selection to the new, empty theme while the draft stays on
"default"/"health". -/
theorem draft_outlives_selection :
    cleanOnHealth.draft = some ⟨"default", some "health", greens, greens, ⟨0, 0, 0⟩, false⟩ ∧
      (clearSelection specStore cleanOnHealth true).store.selected = none ∧
      (clearSelection specStore cleanOnHealth true).draft =
        some ⟨"default", some "health", greens, greens, ⟨0, 0, 0⟩, false⟩ ∧
      (clearSelection specStore cleanOnHealth false).store.selected = none ∧
      (clearSelection specStore cleanOnHealth false).draft =
        some ⟨"default", some "health", greens, greens, ⟨0, 0, 0⟩, false⟩ ∧
      (addTheme specStore cleanOnHealth "night" "pc").store.selected = some ⟨"night", none⟩ ∧
      (addTheme specStore cleanOnHealth "night" "pc").draft =
        some ⟨"default", some "health", greens, greens, ⟨0, 0, 0⟩, false⟩ := by
  refine ⟨by decide, by decide, by decide, by decide, by decide, by decide, by decide⟩

end Switching

/-! ## Committing and cancelling a draft -/

section Commit

variable {E : Type}

/-- C11: with a draft present, dirty or not, and a store write that succeeds,
`confirmDraft` writes the draft's value to the store exactly once, under the
draft's own `sectionKey` and `barName`: the store is the one that single
write returned and the trace gains that write and no other. The draft is
cleared: without a selection none is left, and a draft present afterwards is
the fresh, clean snapshot that `renderAll` takes of the selected bar. With no
draft present `confirmDraft` changes nothing, so it writes nothing. -/
theorem confirmDraft_writes_once (S : StateStore E) (app : App E) (d : Draft)
    (store : StoreState E) (hd : app.draft = some d)
    (hwrite :
      S.setEditedBarValue app.store d.sectionKey d.barName d.value (baseOrEmpty app) =
        Except.ok store) :
    (confirmDraft S app).store = store ∧
      (∃ rest,
        (confirmDraft S app).log =
            app.log ++ Event.setEditedBarValue d.sectionKey d.barName d.value :: rest ∧
          ∀ e ∈ rest, e.isWrite = false) ∧
      (store.selected = none → (confirmDraft S app).draft = none) ∧
      (∀ d2,
        (confirmDraft S app).draft = some d2 →
          store.selected = some ⟨d2.sectionKey, d2.barName⟩ ∧
            d2.dirty = false ∧ d2.hsl = ⟨0, 0, 0⟩ ∧ d2.value = d2.baseValueSnapshot ∧
            lookupBar (S.buildWorkspaceData store (baseOrEmpty app)) d2.sectionKey d2.barName =
              some d2.value) ∧
      ∀ app2 : App E, confirmDraft S { app2 with draft := none } = { app2 with draft := none } := by
  rw [confirmDraft_ok S app d store hd hwrite]
  refine ⟨renderAll_store .., ?_, ?_, ?_, fun app2 => rfl⟩
  · obtain ⟨rest, hlog, hrest⟩ := renderAll_log S
      { app with
        store := store
        draft := none
        log := app.log ++ [Event.setEditedBarValue d.sectionKey d.barName d.value] }
    refine ⟨rest, ?_, fun e he => (hrest e he).2⟩
    rw [hlog]
    simp
  · intro hsel
    exact renderAll_unselected S _ rfl hsel
  · intro d2 hd2
    exact renderAll_fresh S _ d2 rfl hd2

/-- Witness for C11: committing the dirty draft on "health" to the sample
store. -/
theorem confirmDraft_writes_once_witness :
    (confirmDraft specStore dirtyOnHealth).store =
        SpecStore.push dirtyOnHealth.store (.setBar "default" "health" reds) ∧
      (∃ rest,
        (confirmDraft specStore dirtyOnHealth).log =
            dirtyOnHealth.log ++ Event.setEditedBarValue "default" (some "health") reds :: rest ∧
          ∀ e ∈ rest, e.isWrite = false) :=
  ⟨(confirmDraft_writes_once specStore dirtyOnHealth
        ⟨"default", some "health", greens, reds, ⟨0, 0, 0⟩, true⟩
        (SpecStore.push dirtyOnHealth.store (.setBar "default" "health" reds)) (by decide) rfl).1,
    (confirmDraft_writes_once specStore dirtyOnHealth
        ⟨"default", some "health", greens, reds, ⟨0, 0, 0⟩, true⟩
        (SpecStore.push dirtyOnHealth.store (.setBar "default" "health" reds)) (by decide)
        rfl).2.1⟩

/-- C12: if the store write of `confirmDraft` throws, `confirmDraft` returns
normally, reports the failure with `window.alert("Save failed: ...")`, and
leaves the draft, with all its fields, the store and the base configuration
as they were. -/
theorem confirmDraft_failure_keeps_draft (S : StateStore E) (app : App E) (d : Draft)
    (err : String) (hd : app.draft = some d)
    (hwrite :
      S.setEditedBarValue app.store d.sectionKey d.barName d.value (baseOrEmpty app) =
        Except.error err) :
    (confirmDraft S app).draft = some d ∧
      (confirmDraft S app).log = app.log ++ [Event.alert ("Save failed: " ++ err)] ∧
      (confirmDraft S app).store = app.store ∧
      (confirmDraft S app).baseData = app.baseData := by
  rw [confirmDraft_error S app d err hd hwrite]
  exact ⟨hd, rfl, rfl, rfl⟩

/-- Witness for C12: committing the dirty draft on "health" to a store whose
write throws. -/
theorem confirmDraft_failure_keeps_draft_witness :
    (confirmDraft failingStore dirtyOnHealth).draft =
        some ⟨"default", some "health", greens, reds, ⟨0, 0, 0⟩, true⟩ ∧
      (confirmDraft failingStore dirtyOnHealth).log =
        dirtyOnHealth.log ++
          [Event.alert ("Save failed: " ++ "QuotaExceededError: storage is full")] ∧
      (confirmDraft failingStore dirtyOnHealth).store = dirtyOnHealth.store ∧
      (confirmDraft failingStore dirtyOnHealth).baseData = dirtyOnHealth.baseData :=
  confirmDraft_failure_keeps_draft failingStore dirtyOnHealth
    ⟨"default", some "health", greens, reds, ⟨0, 0, 0⟩, true⟩
    "QuotaExceededError: storage is full" (by decide) rfl

/-- C13: with a draft present, dirty or not, `cancelDraft` writes nothing:
the store (its overlay, and so the merged workspace) and the base
configuration are unchanged and the trace gains no write. The cancelled
draft is gone: without a selection no draft is left, and a draft present
afterwards is a clean one whose value is the snapshot that `renderAll` took
of the selected bar in the unchanged store. With no draft present
`cancelDraft` changes nothing. -/
theorem cancelDraft_discards (S : StateStore E) (app : App E) (d : Draft)
    (hd : app.draft = some d) :
    (cancelDraft S app).store = app.store ∧
      (cancelDraft S app).baseData = app.baseData ∧
      S.buildWorkspaceData (cancelDraft S app).store (baseOrEmpty (cancelDraft S app)) =
        S.buildWorkspaceData app.store (baseOrEmpty app) ∧
      (∃ rest,
        (cancelDraft S app).log = app.log ++ rest ∧
          ∀ e ∈ rest, e.isConfirm = false ∧ e.isWrite = false) ∧
      (app.store.selected = none → (cancelDraft S app).draft = none) ∧
      (∀ d2,
        (cancelDraft S app).draft = some d2 →
          app.store.selected = some ⟨d2.sectionKey, d2.barName⟩ ∧
            d2.dirty = false ∧ d2.hsl = ⟨0, 0, 0⟩ ∧ d2.value = d2.baseValueSnapshot ∧
            lookupBar (S.buildWorkspaceData app.store (baseOrEmpty app)) d2.sectionKey
                d2.barName = some d2.value) ∧
      ∀ app2 : App E, cancelDraft S { app2 with draft := none } = { app2 with draft := none } := by
  rw [cancelDraft_of_draft S app d hd]
  refine ⟨renderAll_store .., renderAll_baseData .., ?_, renderAll_log .., ?_, ?_, fun app2 => rfl⟩
  · simp only [baseOrEmpty, renderAll_store, renderAll_baseData]
  · intro hsel
    exact renderAll_unselected S { app with draft := none } rfl hsel
  · intro d2 hd2
    exact renderAll_fresh S { app with draft := none } d2 rfl hd2

/-- Witness for C13: cancelling the dirty draft on "health" (value reds)
leaves the store as it was and a clean draft holding greens. -/
theorem cancelDraft_discards_witness :
    (cancelDraft specStore dirtyOnHealth).store = dirtyOnHealth.store ∧
      ∀ d2,
        (cancelDraft specStore dirtyOnHealth).draft = some d2 →
          dirtyOnHealth.store.selected = some ⟨d2.sectionKey, d2.barName⟩ ∧
            d2.dirty = false ∧ d2.hsl = ⟨0, 0, 0⟩ ∧ d2.value = d2.baseValueSnapshot ∧
            lookupBar (specStore.buildWorkspaceData dirtyOnHealth.store (baseOrEmpty dirtyOnHealth))
                d2.sectionKey d2.barName = some d2.value :=
  ⟨(cancelDraft_discards specStore dirtyOnHealth
        ⟨"default", some "health", greens, reds, ⟨0, 0, 0⟩, true⟩ (by decide)).1,
    (cancelDraft_discards specStore dirtyOnHealth
        ⟨"default", some "health", greens, reds, ⟨0, 0, 0⟩, true⟩ (by decide)).2.2.2.2.2.1⟩

/-- C14: after a `confirmDraft` whose write succeeds, if the selection names
the draft's bar and the merged workspace of the written store returns the
committed value for that bar, a draft exists for the same
`(sectionKey, barName)` with `dirty = false`, `hsl = (0,0,0)` and
`value = baseValueSnapshot =` the value just committed. -/
theorem confirmDraft_reenters_clean (S : StateStore E) (app : App E) (d : Draft)
    (store : StoreState E) (hd : app.draft = some d)
    (hwrite :
      S.setEditedBarValue app.store d.sectionKey d.barName d.value (baseOrEmpty app) =
        Except.ok store)
    (hsel : store.selected = some ⟨d.sectionKey, d.barName⟩)
    (hread :
      lookupBar (S.buildWorkspaceData store (baseOrEmpty app)) d.sectionKey d.barName =
        some d.value) :
    (confirmDraft S app).draft =
      some
        { sectionKey := d.sectionKey
          barName := d.barName
          baseValueSnapshot := d.value
          value := d.value
          hsl := ⟨0, 0, 0⟩
          dirty := false } := by
  rw [confirmDraft_ok S app d store hd hwrite]
  unfold renderAll
  simp only [hsel]
  rw [startDraft_draft]
  simp only [baseOrEmpty] at hread ⊢
  rw [hread]
  rfl

/-- Witness for C14: committing the dirty draft on the selected bar "health"
leaves a clean draft on "health" that holds reds. -/
theorem confirmDraft_reenters_clean_witness :
    (confirmDraft specStore dirtyOnHealth).draft =
      some
        { sectionKey := "default"
          barName := some "health"
          baseValueSnapshot := reds
          value := reds
          hsl := ⟨0, 0, 0⟩
          dirty := false } :=
  confirmDraft_reenters_clean specStore dirtyOnHealth
    ⟨"default", some "health", greens, reds, ⟨0, 0, 0⟩, true⟩
    (SpecStore.push dirtyOnHealth.store (.setBar "default" "health" reds)) (by decide) rfl
    (by decide) (by decide)

/-- C16: when there is no draft, or the draft's dirty flag is not true,
`maybePromptToResolveDraft` returns true for every requested target and
every answer, and the state, with its store, draft and trace, is exactly as
before: no prompt, no write, no change of the draft. -/
theorem maybePrompt_immediate (S : StateStore E) (app : App E)
    (nextSectionKey nextBarName : Option Key) (ok : Bool)
    (h : app.draft = none ∨ ∃ d, app.draft = some d ∧ d.dirty = false) :
    maybePromptToResolveDraft S app nextSectionKey nextBarName ok = (true, app) := by
  unfold maybePromptToResolveDraft
  rcases h with h | ⟨d, h, hclean⟩
  · simp only [h]
  · simp only [h, hclean]
    rfl

/-- Witness for C16: with the clean draft on "health", a request to switch
to "air" is let through at once. -/
theorem maybePrompt_immediate_witness :
    maybePromptToResolveDraft specStore cleanOnHealth (some "default") (some "air") false =
      (true, cleanOnHealth) :=
  maybePrompt_immediate specStore cleanOnHealth (some "default") (some "air") false
    (Or.inr ⟨⟨"default", some "health", greens, greens, ⟨0, 0, 0⟩, false⟩, by decide, rfl⟩)

end Commit

/-! ## Setting the value of a draft -/

section SetValue

variable {E : Type}

/-- C15, as the code has it: `setDraftValue(sectionKey, barName, v)` never
changes the store. If the draft already targets the bar, its value becomes
`v` and `dirty` true while `baseValueSnapshot` and `hsl` stay, with no look
at the workspace. Otherwise a draft is started first: if the bar resolves to
`base` the draft is `{sectionKey, barName, baseValueSnapshot = base,
value = v, hsl = (0,0,0), dirty = true}`, and if it does not resolve no draft
exists afterwards. -/
theorem setDraftValue_moves_to_dirty (S : StateStore E) (app : App E) (sectionKey : Key)
    (barName : Option Key) (v : BarValue) :
    (∀ d,
        app.draft = some d → d.sectionKey = sectionKey → d.barName = barName →
          (setDraftValue S app sectionKey barName v).draft =
            some
              { sectionKey := sectionKey
                barName := barName
                baseValueSnapshot := d.baseValueSnapshot
                value := v
                hsl := d.hsl
                dirty := true }) ∧
      ((app.draft = none ∨
            ∃ d, app.draft = some d ∧ (d.sectionKey ≠ sectionKey ∨ d.barName ≠ barName)) →
          (∀ base,
              lookupBar (S.buildWorkspaceData app.store (baseOrEmpty app)) sectionKey barName =
                  some base →
                (setDraftValue S app sectionKey barName v).draft =
                  some
                    { sectionKey := sectionKey
                      barName := barName
                      baseValueSnapshot := base
                      value := v
                      hsl := ⟨0, 0, 0⟩
                      dirty := true }) ∧
            (lookupBar (S.buildWorkspaceData app.store (baseOrEmpty app)) sectionKey barName =
                none →
              (setDraftValue S app sectionKey barName v).draft = none)) ∧
      (setDraftValue S app sectionKey barName v).store = app.store ∧
      (setDraftValue S app sectionKey barName v).baseData = app.baseData := by
  refine ⟨?_, ?_, (setDraftValue_store ..).1, (setDraftValue_store ..).2⟩
  · intro d hd hs hb
    subst hs hb
    rw [setDraftValue_own S app d v hd]
  · intro hother
    have h := setDraftValue_other S app sectionKey barName v hother
    constructor
    · intro base hbase
      rw [h, hbase]
      rfl
    · intro hnone
      rw [h, hnone]
      rfl

/-- Witness for C15: with the dirty draft on "health", a value set for
"health" keeps the snapshot, a value set for "air" starts a draft on "air",
and a value set for the unknown bar "stamina" leaves no draft. -/
theorem setDraftValue_moves_to_dirty_witness :
    (setDraftValue specStore dirtyOnHealth "default" (some "health") blues).draft =
        some ⟨"default", some "health", greens, blues, ⟨0, 0, 0⟩, true⟩ ∧
      (setDraftValue specStore dirtyOnHealth "default" (some "air") reds).draft =
        some ⟨"default", some "air", blues, reds, ⟨0, 0, 0⟩, true⟩ ∧
      (setDraftValue specStore dirtyOnHealth "default" (some "stamina") reds).draft = none :=
  ⟨(setDraftValue_moves_to_dirty specStore dirtyOnHealth "default" (some "health") blues).1
      ⟨"default", some "health", greens, reds, ⟨0, 0, 0⟩, true⟩ (by decide) rfl rfl,
    ((setDraftValue_moves_to_dirty specStore dirtyOnHealth "default" (some "air") reds).2.1
        (Or.inr
          ⟨⟨"default", some "health", greens, reds, ⟨0, 0, 0⟩, true⟩, by decide,
            Or.inr (by decide)⟩)).1
      blues (by decide),
    ((setDraftValue_moves_to_dirty specStore dirtyOnHealth "default" (some "stamina") reds).2.1
        (Or.inr
          ⟨⟨"default", some "health", greens, reds, ⟨0, 0, 0⟩, true⟩, by decide,
            Or.inr (by decide)⟩)).2
      (by decide)⟩

/-- C15 fails as stated: after an upload that does not parse, the draft on
"default"/"health" is still there while no base configuration is loaded, so
the bar does not resolve in the merged workspace; `setDraftValue` for that
bar then leaves a draft holding the new value instead of no draft. -/
theorem setDraftValue_keeps_unresolved_draft :
    afterBadUpload.app.draft = some ⟨"default", some "health", greens, reds, ⟨0, 0, 0⟩, true⟩ ∧
      lookupBar
          (specStore.buildWorkspaceData afterBadUpload.app.store (baseOrEmpty afterBadUpload.app))
          "default" (some "health") = none ∧
      (setDraftValue specStore afterBadUpload.app "default" (some "health") blues).draft =
        some ⟨"default", some "health", greens, blues, ⟨0, 0, 0⟩, true⟩ := by
  refine ⟨by decide, by decide, by decide⟩

end SetValue

/-! ## Loading a configuration and the stored text -/

section LoadingFacts

variable {E σ : Type}

/-- C17, as the code has it: when the text does not parse,
`loadUiJson5FromText` reports the error to the user with its message
(`window.alert` with a text that ends in "Error: " and the message, and
`uploadModalError` for the upload dialog), and the base configuration
`baseData` is reset to null. -/
theorem loadUiJson5FromText_parse_failure (S : StateStore E)
    (migrate : StoreState E → Workspace → StoreState E) (L : LocalStorage σ)
    (parse : String → Session E σ → Session E σ × Except String Workspace)
    (sess sess1 : Session E σ) (rawText : String) (fileName : Option String) (err : String)
    (h : parse rawText sess = (sess1, Except.error err)) :
    (loadUiJson5FromText S migrate L parse sess rawText fileName).app.baseData = none ∧
      (loadUiJson5FromText S migrate L parse sess rawText fileName).app.log =
        sess1.app.log ++ [Event.alert (friendlyParseMessage err)] ∧
      (∃ lead, friendlyParseMessage err = lead ++ "Error: " ++ err) ∧
      (loadUiJson5FromText S migrate L parse sess rawText fileName).uploadModalError =
        some err := by
  unfold loadUiJson5FromText
  rw [h]
  exact ⟨rfl, rfl, ⟨_, rfl⟩, rfl⟩

/-- Witness for C17: the sample session and a text that does not parse. -/
theorem loadUiJson5FromText_parse_failure_witness :
    afterBadUpload.app.baseData = none ∧
      afterBadUpload.app.log =
        sampleSession.app.log ++
          [Event.alert (friendlyParseMessage "SyntaxError: Unexpected token")] ∧
      (∃ lead,
        friendlyParseMessage "SyntaxError: Unexpected token" =
          lead ++ "Error: " ++ "SyntaxError: Unexpected token") ∧
      afterBadUpload.uploadModalError = some "SyntaxError: Unexpected token" :=
  loadUiJson5FromText_parse_failure specStore noMigration memoryStorage sampleParse sampleSession
    sampleSession "default: ,," (some "bad.json5") "SyntaxError: Unexpected token"
    (congrArg (Prod.mk sampleSession) (if_neg (by decide)))

/-- C17 fails as stated: the sample session has `sampleBase` loaded; after
`loadUiJson5FromText` with a text that does not parse, `baseData` is null. -/
theorem loadUiJson5FromText_drops_base :
    sampleSession.app.baseData = some sampleBase ∧
      sampleParse "default: ,," sampleSession =
        (sampleSession, Except.error "SyntaxError: Unexpected token") ∧
      (loadUiJson5FromText specStore noMigration memoryStorage sampleParse sampleSession
            "default: ,," (some "bad.json5")).app.baseData = none := by
  refine ⟨by decide, congrArg (Prod.mk sampleSession) (if_neg (by decide)), by decide⟩

/-- C18: `loadUiJson5TextFromStorage`, `saveUiJson5TextToStorage` and
`clearStoredUiJson5` return normally whatever `localStorage` does. A read
that throws, a missing key and an empty stored string all yield null, while
a non-empty stored string is returned. A write or removal that throws
leaves the whole session as it was, and one that succeeds changes nothing
but the storage. -/
theorem storage_failures_swallowed (L : LocalStorage σ) (sess : Session E σ)
    (rawText : String) :
    ((∃ r, loadUiJson5TextFromStorage L sess = Except.ok r) ∧
        (∃ r, saveUiJson5TextToStorage L sess rawText = Except.ok r) ∧
        ∃ r, clearStoredUiJson5 L sess = Except.ok r) ∧
      ((∀ err,
            L.getItem sess.storage sess.fileStorageKey = Except.error err →
              loadUiJson5TextFromStorage L sess = Except.ok none) ∧
          (L.getItem sess.storage sess.fileStorageKey = Except.ok none →
            loadUiJson5TextFromStorage L sess = Except.ok none) ∧
          (L.getItem sess.storage sess.fileStorageKey = Except.ok (some "") →
            loadUiJson5TextFromStorage L sess = Except.ok none) ∧
          ∀ raw,
            L.getItem sess.storage sess.fileStorageKey = Except.ok (some raw) →
              0 < raw.length → loadUiJson5TextFromStorage L sess = Except.ok (some raw)) ∧
      ((∀ err,
            L.setItem sess.storage sess.fileStorageKey rawText = Except.error err →
              saveUiJson5TextToStorage L sess rawText = Except.ok sess) ∧
          ∀ err,
            L.removeItem sess.storage sess.fileStorageKey = Except.error err →
              clearStoredUiJson5 L sess = Except.ok sess) ∧
      (∀ r,
          saveUiJson5TextToStorage L sess rawText = Except.ok r →
            r.app = sess.app ∧ r.rawText = sess.rawText ∧ r.fileName = sess.fileName ∧
              r.uploadModalError = sess.uploadModalError ∧
              r.fileStorageKey = sess.fileStorageKey) ∧
        ∀ r,
          clearStoredUiJson5 L sess = Except.ok r →
            r.app = sess.app ∧ r.rawText = sess.rawText ∧ r.fileName = sess.fileName ∧
              r.uploadModalError = sess.uploadModalError ∧
              r.fileStorageKey = sess.fileStorageKey := by
  refine ⟨⟨?_, ?_, ?_⟩, ⟨?_, ?_, ?_, ?_⟩, ⟨?_, ?_⟩, ?_, ?_⟩
  · unfold loadUiJson5TextFromStorage
    split <;> exact ⟨_, rfl⟩
  · unfold saveUiJson5TextToStorage
    split <;> exact ⟨_, rfl⟩
  · unfold clearStoredUiJson5
    split <;> exact ⟨_, rfl⟩
  · intro err h
    unfold loadUiJson5TextFromStorage
    rw [h]
  · intro h
    unfold loadUiJson5TextFromStorage
    rw [h]
  · intro h
    unfold loadUiJson5TextFromStorage
    rw [h]
    rfl
  · intro raw h hpos
    unfold loadUiJson5TextFromStorage
    rw [h]
    simp [hpos]
  · intro err h
    unfold saveUiJson5TextToStorage
    rw [h]
  · intro err h
    unfold clearStoredUiJson5
    rw [h]
  · intro r h
    unfold saveUiJson5TextToStorage at h
    split at h
    · injection h with h
      subst h
      exact ⟨rfl, rfl, rfl, rfl, rfl⟩
    · injection h with h
      subst h
      exact ⟨rfl, rfl, rfl, rfl, rfl⟩
  · intro r h
    unfold clearStoredUiJson5 at h
    split at h
    · injection h with h
      subst h
      exact ⟨rfl, rfl, rfl, rfl, rfl⟩
    · injection h with h
      subst h
      exact ⟨rfl, rfl, rfl, rfl, rfl⟩

/-- Witness for C18: the sample session over a `localStorage` whose every
call throws. -/
theorem storage_failures_swallowed_witness :
    loadUiJson5TextFromStorage brokenStorage sampleSession = Except.ok none ∧
      saveUiJson5TextToStorage brokenStorage sampleSession "changed" = Except.ok sampleSession ∧
      clearStoredUiJson5 brokenStorage sampleSession = Except.ok sampleSession :=
  ⟨(storage_failures_swallowed brokenStorage sampleSession "changed").2.1.1
      "SecurityError: access is denied" rfl,
    (storage_failures_swallowed brokenStorage sampleSession "changed").2.2.1.1
      "QuotaExceededError: storage is full" rfl,
    (storage_failures_swallowed brokenStorage sampleSession "changed").2.2.1.2
      "SecurityError: access is denied" rfl⟩

end LoadingFacts

/-! ## Swatch changes and the variant of a theme -/

section Swatches

/-- C19, as the code has it: for `colorIndex` in `[0, barColorSteps)` and a
bar that is present, let `n` be the length of a current ramp, or
`barColorSteps` when the current ramp is not an array. The addressed ramp
that `applySwatchChange` returns has `max(n, colorIndex + 1)` entries and the
other ramp of a "ps1" bar has `n` entries. So a ramp has exactly
`barColorSteps` entries when the current ramp has that many or is not an
array. -/
theorem applySwatchChange_ramp_lengths (barColorSteps : Nat) (sec : Option JsSection)
    (sectionKey barName : Key) (ps1RampIndex : Option Nat) (colorIndex : Nat) (colorHex : String)
    (hidx : colorIndex < barColorSteps) (hcur : (currentValue sec barName).isNullish = false) :
    (styleOf (sec.bind fun sec => sec.style) = "ps1" →
        ∃ left right,
          applySwatchChange barColorSteps sec sectionKey barName ps1RampIndex colorIndex colorHex =
              .arr [.arr left, .arr right] ∧
            left.length =
              (if ps1RampIndex = some 1 then
                rampLength barColorSteps ((currentValue sec barName).index 0)
              else max (rampLength barColorSteps ((currentValue sec barName).index 0)) (colorIndex + 1)) ∧
            right.length =
              (if ps1RampIndex = some 1 then
                max (rampLength barColorSteps ((currentValue sec barName).index 1)) (colorIndex + 1)
              else rampLength barColorSteps ((currentValue sec barName).index 1)) ∧
            (rampLength barColorSteps ((currentValue sec barName).index 0) = barColorSteps →
              left.length = barColorSteps) ∧
            (rampLength barColorSteps ((currentValue sec barName).index 1) = barColorSteps →
              right.length = barColorSteps)) ∧
      (styleOf (sec.bind fun sec => sec.style) ≠ "ps1" →
        ∃ ramp,
          applySwatchChange barColorSteps sec sectionKey barName ps1RampIndex colorIndex colorHex =
              .arr ramp ∧
            ramp.length = max (rampLength barColorSteps (currentValue sec barName)) (colorIndex + 1) ∧
            (rampLength barColorSteps (currentValue sec barName) = barColorSteps →
              ramp.length = barColorSteps)) := by
  have hside :
      ∀ i,
        (if (currentValue sec barName).isArray then
              copyOrDefault barColorSteps ((currentValue sec barName).index i)
            else arrayFill barColorSteps "#000000").length =
          rampLength barColorSteps ((currentValue sec barName).index i) := by
    intro i
    split
    · exact copyOrDefault_length ..
    · rename_i h
      rw [index_of_non_array barColorSteps _ i (by simpa using h)]
      simp [arrayFill]
  constructor
  · intro hstyle
    unfold applySwatchChange
    simp only [hcur, hstyle, beq_self_eq_true, if_true, Bool.false_eq_true, if_false]
    by_cases hr : ps1RampIndex = some 1
    · subst hr
      refine ⟨_, _, rfl, ?_, ?_, ?_, ?_⟩
      · simp only [if_true]
        exact hside 0
      · simp only [if_true]
        rw [assignIndex_length, hside 1]
      · intro h
        rw [hside 0, h]
      · intro h
        rw [assignIndex_length, hside 1, h]
        omega
    · have hb : (ps1RampIndex == some 1) = false := by simpa using hr
      simp only [hb, Bool.false_eq_true, if_false]
      refine ⟨_, _, rfl, ?_, ?_, ?_, ?_⟩
      · rw [if_neg hr, assignIndex_length, hside 0]
      · rw [if_neg hr]
        exact hside 1
      · intro h
        rw [assignIndex_length, hside 0, h]
        omega
      · intro h
        rw [hside 1, h]
  · intro hstyle
    unfold applySwatchChange
    have hb : (styleOf (sec.bind fun sec => sec.style) == "ps1") = false := by simpa using hstyle
    simp only [hcur, hb, Bool.false_eq_true, if_false]
    refine ⟨_, rfl, ?_, ?_⟩
    · rw [assignIndex_length, copyOrDefault_length]
    · intro h
      rw [assignIndex_length, copyOrDefault_length, h]
      omega

/-- Witness for C19: with five steps, a "pc" bar that holds three colours,
addressed at the swatch 1 (three entries come back) and at the swatch 4
(five entries come back). -/
theorem applySwatchChange_ramp_lengths_witness :
    (∃ ramp,
        applySwatchChange 5 (some shortSection) "default" "health" none 1 "#ffffff" = .arr ramp ∧
          ramp.length =
            max (rampLength 5 (currentValue (some shortSection) "health")) (1 + 1) ∧
          (rampLength 5 (currentValue (some shortSection) "health") = 5 → ramp.length = 5)) ∧
      ∃ ramp,
        applySwatchChange 5 (some shortSection) "default" "health" none 4 "#ffffff" = .arr ramp ∧
          ramp.length =
            max (rampLength 5 (currentValue (some shortSection) "health")) (4 + 1) ∧
          (rampLength 5 (currentValue (some shortSection) "health") = 5 → ramp.length = 5) :=
  ⟨(applySwatchChange_ramp_lengths 5 (some shortSection) "default" "health" none 1 "#ffffff"
        (by decide) (by decide)).2
      (by decide),
    (applySwatchChange_ramp_lengths 5 (some shortSection) "default" "health" none 4 "#ffffff"
        (by decide) (by decide)).2
      (by decide)⟩

/-- C19 fails as stated: with `barColorSteps = 5`, a "pc" bar holding three
colours comes back from `applySwatchChange` with three entries, and a "ps1"
bar holding ramps of three and seven colours comes back with ramps of three
and seven entries. -/
theorem applySwatchChange_passes_length_through :
    applySwatchChange 5 (some shortSection) "default" "health" none 1 "#ffffff" =
        .arr [.str "#003300", .str "#ffffff", .str "#009900"] ∧
      [JsValue.str "#003300", .str "#ffffff", .str "#009900"].length = 3 ∧
      applySwatchChange 5 (some unevenSection) "default" "health" (some 1) 1 "#ffffff" =
        .arr
          [.arr [.str "#003300", .str "#006600", .str "#009900"],
            .arr
              [.str "#000011", .str "#ffffff", .str "#000033", .str "#000044", .str "#000055",
                .str "#000066", .str "#000077"]] ∧
      [JsValue.str "#003300", .str "#006600", .str "#009900"].length = 3 ∧
      [JsValue.str "#000011", .str "#ffffff", .str "#000033", .str "#000044", .str "#000055",
          .str "#000066", .str "#000077"].length = 7 :=
  ⟨rfl, rfl, rfl, rfl, rfl⟩

/-- C20: the variant is decided by `String(style || "").toLowerCase()`
alone. For a bar that is present, whatever the shape of its current value,
`applySwatchChange` returns a pair `[left, right]` of arrays exactly when
that string is "ps1"; `renderBarEditor` draws the left and right rows
exactly then and the single row otherwise; the seed value of a new bar is a
pair exactly then; and the list view labels the theme "ps1" exactly then and
"pc" otherwise. A missing or null style and the empty style give the empty
string, hence "pc". -/
theorem variant_decided_by_style (barColorSteps : Nat) (style : Option String)
    (colors : Option (List (Key × JsValue))) (sectionKey barName : Key)
    (ps1RampIndex : Option Nat) (colorIndex : Nat) (colorHex : String) (value : JsValue)
    (hcur : (currentValue (some ⟨style, colors⟩) barName).isNullish = false) :
    ((applySwatchChange barColorSteps (some ⟨style, colors⟩) sectionKey barName ps1RampIndex
            colorIndex colorHex).IsPair ↔
        styleOf style = "ps1") ∧
      ((colorRows (styleOf style) value).map Prod.fst =
        if styleOf style = "ps1" then [some 0, some 1] else [none]) ∧
      ((newBarValue barColorSteps style).IsPair ↔ styleOf style = "ps1") ∧
      (themeLabel style = if styleOf style = "ps1" then "ps1" else "pc") ∧
      styleOf none = "" ∧ styleOf (some "") = "" ∧ themeLabel none = "pc" ∧
      themeLabel (some "") = "pc" := by
  refine ⟨?_, ?_, ?_, ?_, rfl, rfl, rfl, rfl⟩
  · by_cases hstyle : styleOf style = "ps1"
    · simp only [hstyle, iff_true]
      unfold applySwatchChange
      simp only [hcur, Option.bind, hstyle, beq_self_eq_true, if_true, Bool.false_eq_true,
        if_false]
      split <;> exact ⟨_, _, rfl⟩
    · simp only [hstyle, iff_false]
      unfold applySwatchChange
      have hb : (styleOf style == "ps1") = false := by simpa using hstyle
      simp only [hcur, Option.bind, hb, Bool.false_eq_true, if_false]
      exact assignIndex_not_pair _ _ _
  · by_cases hstyle : styleOf style = "ps1"
    · simp [colorRows, hstyle]
    · simp [colorRows, hstyle]
  · by_cases hstyle : styleOf style = "ps1"
    · simp only [hstyle, iff_true]
      unfold newBarValue
      simp only [hstyle, beq_self_eq_true, if_true]
      exact ⟨_, _, rfl⟩
    · simp only [hstyle, iff_false]
      unfold newBarValue
      have hb : (styleOf style == "ps1") = false := by simpa using hstyle
      simp only [hb, Bool.false_eq_true, if_false]
      exact arrayFill_not_pair _ _
  · by_cases hstyle : styleOf style = "ps1"
    · simp [themeLabel, hstyle]
    · simp [themeLabel, hstyle]

/-- Witness for C20: under the style "PS1" a bar that holds a single ramp
still comes back as a pair, and under the style "pc" a bar that holds a pair
does not. -/
theorem variant_decided_by_style_witness :
    (applySwatchChange 5 (some ⟨some "PS1", some [("health", .arr [.str "#003300"])]⟩) "default"
          "health" none 0 "#ffffff").IsPair ∧
      ¬ (applySwatchChange 5
            (some ⟨some "pc", some [("health", .arr [.arr [.str "#003300"], .arr []])]⟩) "default"
            "health" none 0 "#ffffff").IsPair :=
  ⟨((variant_decided_by_style 5 (some "PS1") (some [("health", .arr [.str "#003300"])]) "default"
          "health" none 0 "#ffffff" .null (by decide)).1).mpr
      (by decide),
    fun h =>
      absurd
        (((variant_decided_by_style 5 (some "pc")
                (some [("health", .arr [.arr [.str "#003300"], .arr []])]) "default" "health"
                none 0 "#ffffff" .null (by decide)).1).mp
          h)
        (by decide)⟩

end Swatches

/-! ## Name collisions in the theme and bar managers -/

section Managers

/-- C21: the theme Add/Copy/Rename and bar New/Dupe/Rename handlers invoke
their mutating callback only with the trimmed answer to the prompt as target
key, and only when that key is non-empty and not present: `workspace[key]`
is null or undefined for a theme, and the selected theme's colours hold no
value under it for a bar. So on a collision no callback is invoked, and the
Rename handlers invoke none when the new name equals the old one. -/
theorem managers_check_collisions (barColorSteps : Nat) (workspace : JsWorkspace)
    (selectValue : String) (selected : Option Selection) (kindAnswer answer : Option String) :
    jsTrim (promptedText answer) = promptedText answer ∧
      (∀ c ∈ addThemeClick workspace kindAnswer answer, c.isCallback = true →
        (∃ kind, c = .onAddTheme (promptedText answer) kind) ∧
          promptedText answer ≠ "" ∧ themeAt workspace (promptedText answer) = none) ∧
      (∀ c ∈ copyThemeClick workspace selectValue answer, c.isCallback = true →
        c = .onCopyTheme selectValue (promptedText answer) ∧
          promptedText answer ≠ "" ∧ themeAt workspace (promptedText answer) = none) ∧
      (∀ c ∈ renameThemeClick workspace selectValue answer, c.isCallback = true →
        c = .onRenameTheme selectValue (promptedText answer) ∧
          promptedText answer ≠ "" ∧ promptedText answer ≠ selectValue ∧
          themeAt workspace (promptedText answer) = none) ∧
      (∀ c ∈ newBarClick barColorSteps workspace selected answer, c.isCallback = true →
        ∃ sel theme,
          selected = some sel ∧ themeAt workspace sel.sectionKey = some theme ∧
            (∃ value, c = .onAddBar sel.sectionKey (promptedText answer) value) ∧
            promptedText answer ≠ "" ∧ hasBar theme (promptedText answer) = false) ∧
      (∀ c ∈ dupeBarClick workspace selected answer, c.isCallback = true →
        ∃ sel theme fromName,
          selected = some sel ∧ sel.barName = some fromName ∧
            themeAt workspace sel.sectionKey = some theme ∧
            c = .onCopyBar sel.sectionKey fromName (promptedText answer) ∧
            promptedText answer ≠ "" ∧ hasBar theme (promptedText answer) = false) ∧
      ∀ c ∈ renameBarClick workspace selected answer, c.isCallback = true →
        ∃ sel theme fromName,
          selected = some sel ∧ sel.barName = some fromName ∧
            themeAt workspace sel.sectionKey = some theme ∧
            c = .onRenameBar sel.sectionKey fromName (promptedText answer) ∧
            promptedText answer ≠ "" ∧ promptedText answer ≠ fromName ∧
            hasBar theme (promptedText answer) = false := by
  refine ⟨jsTrim_idem _, ?_, ?_, ?_, ?_, ?_, ?_⟩
  · intro c hc hcb
    unfold addThemeClick at hc
    dsimp only at hc
    split at hc
    · simp at hc
    · split at hc
      · simp at hc
      · rename_i hlen
        split at hc
        · simp only [List.mem_singleton] at hc
          subst hc
          simp [ViewCall.isCallback] at hcb
        · rename_i habsent
          simp only [List.mem_singleton] at hc
          exact ⟨⟨_, hc⟩, ne_empty_of_length _ (by simpa using hlen), by simpa using habsent⟩
  · intro c hc hcb
    unfold copyThemeClick at hc
    dsimp only at hc
    split at hc
    · simp at hc
    · split at hc
      · simp at hc
      · rename_i hlen
        split at hc
        · simp only [List.mem_singleton] at hc
          subst hc
          simp [ViewCall.isCallback] at hcb
        · rename_i habsent
          simp only [List.mem_singleton] at hc
          exact ⟨hc, ne_empty_of_length _ (by simpa using hlen), by simpa using habsent⟩
  · intro c hc hcb
    unfold renameThemeClick at hc
    dsimp only at hc
    split at hc
    · simp at hc
    · split at hc
      · simp at hc
      · rename_i hcond
        simp only [Bool.or_eq_true, not_or, Bool.not_eq_true] at hcond
        split at hc
        · simp only [List.mem_singleton] at hc
          subst hc
          simp [ViewCall.isCallback] at hcb
        · rename_i habsent
          simp only [List.mem_singleton] at hc
          exact ⟨hc, ne_empty_of_length _ hcond.1, by simpa using hcond.2, by simpa using habsent⟩
  · intro c hc hcb
    unfold newBarClick at hc
    split at hc
    · simp at hc
    · rename_i themeKey theme barName hasSelection hm
      obtain ⟨sel, hsel, hkey, _, htheme⟩ := managedTheme_some _ _ _ _ _ _ hm
      subst hkey
      dsimp only at hc
      split at hc
      · simp at hc
      · rename_i hlen
        split at hc
        · simp only [List.mem_singleton] at hc
          subst hc
          simp [ViewCall.isCallback] at hcb
        · rename_i habsent
          simp only [List.mem_singleton] at hc
          exact ⟨sel, theme, hsel, htheme, ⟨_, hc⟩, ne_empty_of_length _ (by simpa using hlen),
            by simpa using habsent⟩
  · intro c hc hcb
    unfold dupeBarClick at hc
    split at hc
    · rename_i themeKey theme fromName hm
      obtain ⟨sel, hsel, hkey, hbar, htheme⟩ := managedTheme_some _ _ _ _ _ _ hm
      subst hkey
      dsimp only at hc
      split at hc
      · simp at hc
      · rename_i hlen
        split at hc
        · simp only [List.mem_singleton] at hc
          subst hc
          simp [ViewCall.isCallback] at hcb
        · rename_i habsent
          simp only [List.mem_singleton] at hc
          exact ⟨sel, theme, fromName, hsel, hbar, htheme, hc,
            ne_empty_of_length _ (by simpa using hlen), by simpa using habsent⟩
    · simp at hc
  · intro c hc hcb
    unfold renameBarClick at hc
    split at hc
    · rename_i themeKey theme fromName hm
      obtain ⟨sel, hsel, hkey, hbar, htheme⟩ := managedTheme_some _ _ _ _ _ _ hm
      subst hkey
      dsimp only at hc
      split at hc
      · simp at hc
      · rename_i hcond
        simp only [Bool.or_eq_true, not_or, Bool.not_eq_true] at hcond
        split at hc
        · simp only [List.mem_singleton] at hc
          subst hc
          simp [ViewCall.isCallback] at hcb
        · rename_i habsent
          simp only [List.mem_singleton] at hc
          exact ⟨sel, theme, fromName, hsel, hbar, htheme, hc, ne_empty_of_length _ hcond.1,
            by simpa using hcond.2, by simpa using habsent⟩
    · simp at hc

/-- Witness for C21: with the bar "health" of theme "default" selected, the
answer " stamina " to the bar Rename prompt invokes `onRenameBar` with the
key "stamina", which the theme does not hold. -/
theorem managers_check_collisions_witness :
    ∃ sel theme fromName,
      some (⟨"default", some "health"⟩ : Selection) = some sel ∧ sel.barName = some fromName ∧
        themeAt sampleView sel.sectionKey = some theme ∧
        ViewCall.onRenameBar "default" "health" "stamina" =
          .onRenameBar sel.sectionKey fromName (promptedText (some " stamina ")) ∧
        promptedText (some " stamina ") ≠ "" ∧ promptedText (some " stamina ") ≠ fromName ∧
        hasBar theme (promptedText (some " stamina ")) = false :=
  (managers_check_collisions 5 sampleView "default" (some ⟨"default", some "health"⟩) (some "pc")
        (some " stamina ")).2.2.2.2.2.2
    (.onRenameBar "default" "health" "stamina") (List.mem_singleton.mpr rfl) rfl

end Managers

/-! ## The workspace with the draft laid over it -/

section Overlay

variable {E : Type}

/-- C22, as the code has it: `buildWorkspaceWithDraft` returns the merged
workspace `stateStore.buildWorkspaceData(base)` itself when there is no
draft, when the draft's bar name is null, and when the draft's theme is
missing from it or has no `colors`. When a draft on the bar `barName` exists
and its theme is present with `colors`, the result has the same theme keys in
the same order, every other theme is the merged one, and the draft's theme
keeps its style while its colours hold `draft.value` under `barName` and the
merged value under every other name. The value is assigned in place into the
object the store returned: the base configuration and the overlay are not
modified when that object is a fresh one, nor when nothing is assigned. -/
theorem buildWorkspaceWithDraft_frame (S : StateStore E) (app : App E) (holder : Key → Holder) :
    (app.draft = none →
        buildWorkspaceWithDraft S app = S.buildWorkspaceData app.store (baseOrEmpty app)) ∧
      (∀ d,
        app.draft = some d →
          (S.buildWorkspaceData app.store (baseOrEmpty app)).lookup d.sectionKey = none ∨
              (∃ sec,
                (S.buildWorkspaceData app.store (baseOrEmpty app)).lookup d.sectionKey = some sec ∧
                  sec.colors = none) →
            buildWorkspaceWithDraft S app = S.buildWorkspaceData app.store (baseOrEmpty app)) ∧
      (∀ d,
        app.draft = some d → d.barName = none →
          buildWorkspaceWithDraft S app = S.buildWorkspaceData app.store (baseOrEmpty app)) ∧
      (∀ d barName sec colors,
        app.draft = some d → d.barName = some barName →
          (S.buildWorkspaceData app.store (baseOrEmpty app)).lookup d.sectionKey = some sec →
            sec.colors = some colors →
              (buildWorkspaceWithDraft S app).map Prod.fst =
                  (S.buildWorkspaceData app.store (baseOrEmpty app)).map Prod.fst ∧
                (∀ themeKey, themeKey ≠ d.sectionKey →
                  (buildWorkspaceWithDraft S app).lookup themeKey =
                    (S.buildWorkspaceData app.store (baseOrEmpty app)).lookup themeKey) ∧
                ∃ colors2,
                  (buildWorkspaceWithDraft S app).lookup d.sectionKey =
                      some { style := sec.style, colors := some colors2 } ∧
                    colors2.lookup barName = some (some d.value) ∧
                    ∀ name, name ≠ barName → colors2.lookup name = colors.lookup name) ∧
      (buildWorkspaceWithDraftInPlace S holder app).1 = buildWorkspaceWithDraft S app ∧
      ((∀ themeKey, holder themeKey = Holder.fresh) →
        (buildWorkspaceWithDraftInPlace S holder app).2 = (app.baseData, false)) ∧
      (app.draft = none ∨
          (∃ d,
            app.draft = some d ∧
              (d.barName = none ∨
                (S.buildWorkspaceData app.store (baseOrEmpty app)).lookup d.sectionKey = none ∨
                ∃ sec,
                  (S.buildWorkspaceData app.store (baseOrEmpty app)).lookup d.sectionKey =
                      some sec ∧
                    sec.colors = none)) →
        (buildWorkspaceWithDraftInPlace S holder app).2 = (app.baseData, false)) := by
  refine ⟨?_, ?_, ?_, ?_, ?_, ?_, ?_⟩
  · intro hd
    unfold buildWorkspaceWithDraft
    simp only [hd]
  · intro d hd h
    unfold buildWorkspaceWithDraft
    simp only [hd]
    rcases h with h | ⟨sec, h, hc⟩
    · rw [h]
      split <;> first | rfl | (rename_i h2; cases h2)
    · rw [h]
      split
      · rename_i h1 h2
        simp only [Option.some.injEq] at h2
        subst h2
        simp only [hc]
      · rfl
  · intro d hd hb
    unfold buildWorkspaceWithDraft
    simp only [hd, hb]
  · intro d barName sec colors hd hb h hc
    have hres :
        buildWorkspaceWithDraft S app =
          assignKey d.sectionKey
            { sec with colors := some (assignKey barName (some d.value) colors) }
            (S.buildWorkspaceData app.store (baseOrEmpty app)) := by
      unfold buildWorkspaceWithDraft
      simp only [hd, hb, h, hc]
    rw [hres]
    refine ⟨keys_assignKey _ _ _ sec h, ?_, ⟨assignKey barName (some d.value) colors, ?_, ?_, ?_⟩⟩
    · intro themeKey hne
      rw [lookup_assignKey, if_neg hne]
    · rw [lookup_assignKey, if_pos rfl]
    · rw [lookup_assignKey, if_pos rfl]
    · intro name hne
      rw [lookup_assignKey, if_neg hne]
  · unfold buildWorkspaceWithDraftInPlace
    split
    · rfl
    · split <;> rfl
  · intro hfresh
    unfold buildWorkspaceWithDraftInPlace
    split
    · rfl
    · rename_i themeKey barName value _
      rw [hfresh themeKey]
  · intro h
    have hnone : draftAssignment S app = none := by
      unfold draftAssignment
      rcases h with h | ⟨d, h, hb | hsec | ⟨sec, hsec, hc⟩⟩
      · simp only [h]
      · simp only [h, hb]
      · simp only [h, hsec]
        split <;> first | rfl | (rename_i h2; cases h2)
      · simp only [h, hsec]
        split
        · rename_i h1 h2
          simp only [Option.some.injEq] at h2
          subst h2
          simp only [hc]
        · rfl
    unfold buildWorkspaceWithDraftInPlace
    rw [hnone]

/-- Witness for C22: the dirty draft on "health" (value reds) is laid over
the merged workspace, whose bar "air" and theme keys stay; with a fresh
object from the store the base configuration is as before. -/
theorem buildWorkspaceWithDraft_frame_witness :
    ((buildWorkspaceWithDraft specStore dirtyOnHealth).map Prod.fst =
          (specStore.buildWorkspaceData dirtyOnHealth.store (baseOrEmpty dirtyOnHealth)).map
            Prod.fst ∧
        (∀ themeKey, themeKey ≠ "default" →
          (buildWorkspaceWithDraft specStore dirtyOnHealth).lookup themeKey =
            (specStore.buildWorkspaceData dirtyOnHealth.store
                (baseOrEmpty dirtyOnHealth)).lookup themeKey) ∧
        ∃ colors2,
          (buildWorkspaceWithDraft specStore dirtyOnHealth).lookup "default" =
              some { style := some "pc", colors := some colors2 } ∧
            colors2.lookup "health" = some (some reds) ∧
            ∀ name, name ≠ "health" →
              colors2.lookup name =
                [("health", some greens), ("air", some blues)].lookup name) ∧
      (buildWorkspaceWithDraftInPlace specStore (fun _ => Holder.fresh) dirtyOnHealth).2 =
        (dirtyOnHealth.baseData, false) :=
  ⟨(buildWorkspaceWithDraft_frame specStore dirtyOnHealth (fun _ => Holder.fresh)).2.2.2.1
      ⟨"default", some "health", greens, reds, ⟨0, 0, 0⟩, true⟩ "health"
      ⟨some "pc", some [("health", some greens), ("air", some blues)]⟩
      [("health", some greens), ("air", some blues)] (by decide) rfl (by decide) rfl,
    (buildWorkspaceWithDraft_frame specStore dirtyOnHealth (fun _ => Holder.fresh)).2.2.2.2.2.1
      (fun _ => rfl)⟩

/-- C22 fails as stated. A draft whose bar name is null, on a theme that is
present with colours, is not laid over the workspace: the draft holds reds
while the workspace returned holds greens under the key "null" that
`colors[null]` reads. And the write is in place: when the store hands out the
base configuration's own `colors` object, the base configuration reads reds
for "health" after the call. -/
theorem buildWorkspaceWithDraft_skips_null_bar :
    nullBarDraft.draft = some ⟨"default", none, greens, reds, ⟨0, 0, 0⟩, true⟩ ∧
      specStore.buildWorkspaceData nullBarDraft.store (baseOrEmpty nullBarDraft) =
        [("default", { style := some "pc", colors := some [("null", some greens)] })] ∧
      lookupBar (buildWorkspaceWithDraft specStore nullBarDraft) "default" none = some greens ∧
      dirtyOnHealth.baseData = some sampleBase ∧
      (buildWorkspaceWithDraftInPlace specStore (fun _ => Holder.base) dirtyOnHealth).2.1 =
        some
          [("default",
              { style := some "pc"
                colors := some [("health", some reds), ("air", some blues)] })] := by
  refine ⟨by decide, by decide, by decide, by decide, by decide⟩

end Overlay

/-! ## Export and the big preview -/

section Export

variable {E : Type}

/-- C23: `buildExportText` serialises exactly
`stateStore.buildWorkspaceData(base)`, for every base and overlay, with the
empty object as base when none is loaded; the text does not depend on the
draft, so a value held only in an uncommitted draft is not exported. -/
theorem buildExportText_ignores_draft (S : StateStore E) (stringify : Workspace → String)
    (app : App E) (draft : Option Draft) :
    buildExportText S stringify app =
        stringify (S.buildWorkspaceData app.store (app.baseData.getD [])) ∧
      buildExportText S stringify { app with draft := draft } =
        buildExportText S stringify app ∧
      buildExportText S stringify { app with baseData := none } =
        stringify (S.buildWorkspaceData app.store []) :=
  ⟨rfl, rfl, rfl⟩

/-- C25: with a preview canvas present, one run of `redrawBigPreview` on a
canvas that measures `width <= 0` or `height <= 0` does not draw and asks for
exactly one animation frame, whose callback runs `redrawBigPreview` with the
same arguments; on a canvas with both dimensions positive it calls
`drawBarPreview` once with `(theme, state.percent, state.smooth,
barColorSteps)` and asks for no frame. Without a canvas it does nothing. -/
theorem redrawBigPreview_guards {Θ : Type}
    (buildThemeFromSection : JsSection → JsValue → Nat → Θ) (barColorSteps : Nat)
    (rect : CanvasRect) (sectionKey barName : Key) (sec : JsSection) (barValue : JsValue)
    (state : ViewState) :
    (rect.width ≤ 0 ∨ rect.height ≤ 0 →
        redrawBigPreview buildThemeFromSection barColorSteps (some rect) sectionKey barName sec
            barValue state =
          [.requestAnimationFrame sectionKey barName sec barValue state]) ∧
      (0 < rect.width ∧ 0 < rect.height →
        redrawBigPreview buildThemeFromSection barColorSteps (some rect) sectionKey barName sec
            barValue state =
          [.drawBarPreview (buildThemeFromSection sec barValue barColorSteps) state.percent
              state.smooth barColorSteps]) ∧
      redrawBigPreview buildThemeFromSection barColorSteps none sectionKey barName sec barValue
          state = [] := by
  refine ⟨?_, ?_, rfl⟩
  · intro h
    unfold redrawBigPreview
    simp only [h, if_true]
  · intro h
    have hn : ¬ (rect.width ≤ 0 ∨ rect.height ≤ 0) := by
      rintro (h1 | h1)
      · exact absurd h.1 (not_lt.mpr h1)
      · exact absurd h.2 (not_lt.mpr h1)
    unfold redrawBigPreview
    simp only [hn, if_false]

/-- Witness for C25: a canvas not yet laid out (width 0) and one of 300 by 20. -/
theorem redrawBigPreview_guards_witness :
    redrawBigPreview (fun _ _ _ => "theme") 5 (some ⟨0, 20⟩) "default" "health" shortSection
          .null ⟨none, 1, false⟩ =
        [.requestAnimationFrame "default" "health" shortSection .null ⟨none, 1, false⟩] ∧
      redrawBigPreview (fun _ _ _ => "theme") 5 (some ⟨300, 20⟩) "default" "health" shortSection
          .null ⟨none, 1, false⟩ =
        [.drawBarPreview "theme" 1 false 5] :=
  ⟨(redrawBigPreview_guards (fun _ _ _ => "theme") 5 ⟨0, 20⟩ "default" "health" shortSection
        .null ⟨none, 1, false⟩).1
      (Or.inl (le_refl 0)),
    (redrawBigPreview_guards (fun _ _ _ => "theme") 5 ⟨300, 20⟩ "default" "health" shortSection
        .null ⟨none, 1, false⟩).2.1
      ⟨by norm_num, by norm_num⟩⟩

end Export

/-! ## Deleting and copying a bar -/

section BarCrud

variable {E : Type}

/-- C26 fails on the code: theme "default" holds the single bar "health",
which is selected with a draft on it; after `deleteBar("default", "health")`
the store holds no bar in the theme, yet the selection still names the
deleted bar "health" instead of the empty bar name, because the workspace
that `deleteBar` reads has the draft laid over it. -/
theorem deleteBar_keeps_deleted_selected :
    soloSelected.store.selected = some ⟨"default", some "health"⟩ ∧
      soloSelected.draft = some ⟨"default", some "health", greens, greens, ⟨0, 0, 0⟩, false⟩ ∧
      specStore.buildWorkspaceData (deleteBar specStore soloSelected "default" "health").store
          soloBase =
        [("default", { style := some "pc", colors := some [] })] ∧
      (deleteBar specStore soloSelected "default" "health").store.selected =
        some ⟨"default", some "health"⟩ ∧
      (deleteBar specStore soloSelected "default" "health").draft = none := by
  refine ⟨by decide, by decide, by decide, by decide, by decide⟩

/-- C27: `copyBar(themeKey, fromName, toName)` reads the source bar in the
workspace with the draft laid over it. If the bar resolves to `v` there, the
store receives exactly `setBarValue(themeKey, toName, v)` and then the
selection of `toName`; if it does not resolve, nothing changes. When
`fromName` is the bar being edited (its theme present with colours), `v` is
the draft's current value; otherwise `v` is the store's merged value. -/
theorem copyBar_copies_overlaid_value (S : StateStore E) (app : App E)
    (themeKey fromName toName : Key) :
    (lookupBar (getWorkspace S app) themeKey (some fromName) = none →
        copyBar S app themeKey fromName toName = app) ∧
      (∀ v,
        lookupBar (getWorkspace S app) themeKey (some fromName) = some v →
          (copyBar S app themeKey fromName toName).store =
            S.selectBar (S.setBarValue app.store themeKey toName v (baseOrEmpty app)) themeKey
              toName) ∧
      (∀ d sec colors,
        app.draft = some d → d.sectionKey = themeKey → d.barName = some fromName →
          (S.buildWorkspaceData app.store (baseOrEmpty app)).lookup themeKey = some sec →
            sec.colors = some colors →
              lookupBar (getWorkspace S app) themeKey (some fromName) = some d.value) ∧
      (app.draft = none ∨
          (∃ d, app.draft = some d ∧ (d.sectionKey ≠ themeKey ∨ d.barName ≠ some fromName)) →
        lookupBar (getWorkspace S app) themeKey (some fromName) =
          lookupBar (S.buildWorkspaceData app.store (baseOrEmpty app)) themeKey (some fromName)) := by
  refine ⟨?_, ?_, ?_, ?_⟩
  · intro h
    unfold copyBar
    simp only [h]
  · intro v h
    unfold copyBar
    simp only [h, renderAll_store, startDraft_store]
  · intro d sec colors hd hs hb hsec hc
    subst hs
    exact lookupBar_overlay_own S app d fromName sec colors hd hb hsec hc
  · intro h
    exact lookupBar_overlay_other S app themeKey fromName h

/-- Witness for C27: copying "health" while its draft holds the uncommitted
reds writes reds under "health_copy"; the store still resolves "health" to
greens. -/
theorem copyBar_copies_overlaid_value_witness :
    (copyBar specStore dirtyOnHealth "default" "health" "health_copy").store =
        specStore.selectBar
          (specStore.setBarValue dirtyOnHealth.store "default" "health_copy" reds
            (baseOrEmpty dirtyOnHealth))
          "default" "health_copy" ∧
      lookupBar
          (specStore.buildWorkspaceData
            (copyBar specStore dirtyOnHealth "default" "health" "health_copy").store sampleBase)
          "default" (some "health_copy") = some reds ∧
      lookupBar
          (specStore.buildWorkspaceData
            (copyBar specStore dirtyOnHealth "default" "health" "health_copy").store sampleBase)
          "default" (some "health") = some greens ∧
      copyBar specStore dirtyOnHealth "default" "stamina" "stamina_copy" = dirtyOnHealth :=
  ⟨(copyBar_copies_overlaid_value specStore dirtyOnHealth "default" "health" "health_copy").2.1
      reds
      ((copyBar_copies_overlaid_value specStore dirtyOnHealth "default" "health"
            "health_copy").2.2.1
        ⟨"default", some "health", greens, reds, ⟨0, 0, 0⟩, true⟩
        ⟨some "pc", some [("health", some greens), ("air", some blues)]⟩
        [("health", some greens), ("air", some blues)] (by decide) rfl rfl (by decide) rfl),
    by decide, by decide,
    (copyBar_copies_overlaid_value specStore dirtyOnHealth "default" "stamina"
        "stamina_copy").1
      (by decide)⟩

end BarCrud

/-! ## The frame of a swatch change -/

section SwatchFrame

/-- C28: for a "pc" bar whose current value is an array and `colorIndex`
inside it, `applySwatchChange` returns that array with the entry
`colorIndex` replaced by the new colour; for a "ps1" bar whose current value
is a pair of two arrays it returns the pair with the entry `colorIndex` of
the right ramp replaced when `ps1RampIndex` is 1, and of the left ramp
otherwise, the other ramp being the current one. A replaced ramp has the same
length, holds the new colour at `colorIndex` and the current entry at every
other index. When the bar is absent the (null or undefined) current value is
returned. -/
theorem applySwatchChange_frame (barColorSteps : Nat) (sec : Option JsSection)
    (sectionKey barName : Key) (ps1RampIndex : Option Nat) (colorIndex : Nat)
    (colorHex : String) :
    (∀ ramp,
        styleOf (sec.bind fun sec => sec.style) ≠ "ps1" →
          currentValue sec barName = .arr ramp → colorIndex < ramp.length →
            applySwatchChange barColorSteps sec sectionKey barName ps1RampIndex colorIndex
                colorHex =
              .arr (ramp.set colorIndex (.str colorHex))) ∧
      (∀ left right,
        styleOf (sec.bind fun sec => sec.style) = "ps1" →
          currentValue sec barName = .arr [.arr left, .arr right] →
            (ps1RampIndex = some 1 → colorIndex < right.length →
                applySwatchChange barColorSteps sec sectionKey barName ps1RampIndex colorIndex
                    colorHex =
                  .arr [.arr left, .arr (right.set colorIndex (.str colorHex))]) ∧
              (ps1RampIndex ≠ some 1 → colorIndex < left.length →
                applySwatchChange barColorSteps sec sectionKey barName ps1RampIndex colorIndex
                    colorHex =
                  .arr [.arr (left.set colorIndex (.str colorHex)), .arr right])) ∧
      ((currentValue sec barName).isNullish = true →
        applySwatchChange barColorSteps sec sectionKey barName ps1RampIndex colorIndex colorHex =
          currentValue sec barName) ∧
      ∀ (ramp : List JsValue) (j : Nat),
        colorIndex < ramp.length →
          (ramp.set colorIndex (.str colorHex)).length = ramp.length ∧
            (ramp.set colorIndex (.str colorHex))[colorIndex]? = some (.str colorHex) ∧
            (j ≠ colorIndex → (ramp.set colorIndex (.str colorHex))[j]? = ramp[j]?) := by
  refine ⟨?_, ?_, ?_, ?_⟩
  · intro ramp hstyle hcur hidx
    have hb : (styleOf (sec.bind fun sec => sec.style) == "ps1") = false := by simpa using hstyle
    unfold applySwatchChange
    simp only [hcur, JsValue.isNullish, hb, Bool.false_eq_true, if_false, copyOrDefault,
      assignIndex, hidx, if_true]
  · intro left right hstyle hcur
    constructor
    · intro hr hidx
      unfold applySwatchChange
      simp [hcur, JsValue.isNullish, hstyle, JsValue.isArray, JsValue.index, copyOrDefault,
        assignIndex, hidx, hr]
    · intro hr hidx
      have hb : (ps1RampIndex == some 1) = false := by simpa using hr
      unfold applySwatchChange
      simp [hcur, JsValue.isNullish, hstyle, JsValue.isArray, JsValue.index, copyOrDefault,
        assignIndex, hidx, hb]
  · intro hnull
    unfold applySwatchChange
    simp only [hnull, if_true]
  · intro ramp j hidx
    refine ⟨List.length_set .., ?_, ?_⟩
    · simp [List.getElem?_set, hidx]
    · intro hne
      simp [List.getElem?_set, Ne.symm hne]

/-- Witness for C28: the swatch 1 of a "pc" bar of three colours, and the
swatch 1 of the right ramp of a "PS1" bar. -/
theorem applySwatchChange_frame_witness :
    applySwatchChange 5 (some shortSection) "default" "health" none 1 "#ffffff" =
        .arr
          ([JsValue.str "#003300", .str "#006600", .str "#009900"].set 1 (.str "#ffffff")) ∧
      applySwatchChange 5 (some unevenSection) "default" "health" (some 1) 1 "#ffffff" =
        .arr
          [.arr [.str "#003300", .str "#006600", .str "#009900"],
            .arr
              ([JsValue.str "#000011", .str "#000022", .str "#000033", .str "#000044",
                    .str "#000055", .str "#000066", .str "#000077"].set
                1 (.str "#ffffff"))] ∧
      applySwatchChange 5 (some shortSection) "default" "stamina" none 1 "#ffffff" =
        currentValue (some shortSection) "stamina" :=
  ⟨(applySwatchChange_frame 5 (some shortSection) "default" "health" none 1 "#ffffff").1 _
      (by decide) rfl (by decide),
    ((applySwatchChange_frame 5 (some unevenSection) "default" "health" (some 1) 1
            "#ffffff").2.1
          _ _ (by decide) rfl).1
      rfl (by decide),
    (applySwatchChange_frame 5 (some shortSection) "default" "stamina" none 1 "#ffffff").2.2.1
      (by decide)⟩

end SwatchFrame

/-! ## Escaping HTML -/

section Escaping

/-- C29: for every input string, the output of `escapeHtml` holds none of the
characters `<`, `>`, the double quote and the apostrophe, and every `&` in it
begins one of the five entities `&amp;`, `&lt;`, `&gt;`, `&quot;`, `&#39;`.
The output is the input with each of the five characters replaced by its
entity, so the `&` of an entity already in the input is escaped again. -/
theorem escapeHtml_safe (text : String) :
    (∀ c ∈ (escapeHtml text).data, c ≠ '<' ∧ c ≠ '>' ∧ c ≠ quoteChar ∧ c ≠ aposChar) ∧
      (∀ pre post,
        (escapeHtml text).data = pre ++ '&' :: post →
          ∃ e ∈ entities, ∃ rest, '&' :: post = e.data ++ rest) ∧
      (escapeHtml text).data = text.data.flatMap escapeChar ∧
      escapeChar '&' = "&amp;".data ∧ escapeHtml "&lt;" = "&amp;lt;" := by
  refine ⟨?_, ?_, escapeHtml_data text, by decide, by decide⟩
  · intro c hc
    rw [escapeHtml_data, List.mem_flatMap] at hc
    obtain ⟨x, _, hx⟩ := hc
    exact escapeChar_clean x c hx
  · intro pre post h
    rw [escapeHtml_data] at h
    exact amp_begins_entity text.data pre post h

/-- Witness for C29: a parse error text that carries markup and an entity. -/
theorem escapeHtml_safe_witness :
    escapeHtml "<img src=x onerror=alert(1)> &lt;" =
        "&lt;img src=x onerror=alert(1)&gt; &amp;lt;" ∧
      ∀ c ∈ (escapeHtml "<img src=x onerror=alert(1)> &lt;").data,
        c ≠ '<' ∧ c ≠ '>' ∧ c ≠ quoteChar ∧ c ≠ aposChar :=
  ⟨by decide, (escapeHtml_safe "<img src=x onerror=alert(1)> &lt;").1⟩

end Escaping

end BarsApp
